import Mathlib

/-!
Verification of the NetworkSimulator graph-editing engine
(`src/netsim_classes.h`, `src/netsim_window.cpp`).

The C++ program is a Qt diagram editor.  We embed the parts of its state
that the specification talks about:

* `NetworkNode` / `NetworkEdge` objects become entries of association
  lists (`heapNodes` / `heapEdges`) indexed by stable identifiers; an
  identifier that is present in some list but absent from the heap models
  a dangling pointer to a destroyed object.
* The window's `QList<NetworkNode*> nodes` / `QList<NetworkEdge*> edges`
  members become `nodes : List NodeId` / `edges : List EdgeId`.
* Every live item is a member of the `QGraphicsScene`; in all code paths
  items are inserted into and removed from the scene exactly when they
  are constructed and destroyed, so scene membership coincides with heap
  membership and is not tracked separately.
* `qreal` coordinates are modelled by `ℚ` (exact real arithmetic),
  z-values by `Int`, and the Qt per-item selection flag by a `Bool`
  stored with the item.
* Status-bar and message-box strings are collected in `msgs`; they are
  recorded only for the operations whose reporting behaviour the
  specification constrains.
-/

namespace NetSimModel

abbrev NodeId := Nat
abbrev EdgeId := Nat

/-- State of a `NetworkNode` (netsim_classes.h:38-60): position, label,
incident-edge list and the scene-level z-value / selection flag. -/
structure NodeData where
  x : ℚ
  y : ℚ
  lbl : String
  edgeList : List EdgeId
  z : Int
  selected : Bool
  deriving Repr, DecidableEq

/-- State of a `NetworkEdge` (netsim_classes.h:63-85): endpoints, directed
flag, label and the scene-level z-value / selection flag.  The cached line
geometry is derived from the endpoint positions and is not stored. -/
structure EdgeData where
  src : NodeId
  dst : NodeId
  directed : Bool
  lbl : String
  z : Int
  selected : Bool
  deriving Repr, DecidableEq

/-- A scene item is a node or an edge (edge labels and label backgrounds are
child decorations of their edge and never participate in the claims). -/
inductive Item where
  | node (id : NodeId)
  | edge (id : EdgeId)
  deriving Repr, DecidableEq

namespace NetworkNode

/-- netsim_classes.h:40 -/
def DEFAULT_ZVALUE : Int := 10

/-- netsim_classes.h:41 -/
def SELECTED_ZVALUE : Int := 100

end NetworkNode

namespace NetworkEdge

/-- netsim_classes.h:65 -/
def DEFAULT_ZVALUE : Int := 0

/-- netsim_classes.h:66 -/
def SELECTED_ZVALUE : Int := 5

end NetworkEdge

/-- First value stored under a key in an association list (the heap lookup:
dereferencing an id that is live). -/
def findVal {α : Type} (k : Nat) : List (Nat × α) → Option α
  | [] => none
  | p :: ps => if p.1 = k then some p.2 else findVal k ps

/-- Update the object stored under key `k` in place (mutating one field of a
live C++ object through a pointer).  Keys are unique in every reachable
state; mapping over all entries keeps the definition total. -/
def updVal {α : Type} (k : Nat) (f : α → α) (h : List (Nat × α)) : List (Nat × α) :=
  h.map fun p => if p.1 = k then (p.1, f p.2) else p

/-- Remove the object stored under key `k` (the C++ `delete`). -/
def eraseKey {α : Type} (k : Nat) : List (Nat × α) → List (Nat × α)
  | [] => []
  | p :: t => if p.1 = k then eraseKey k t else p :: eraseKey k t

/-- The whole mutable state of the `NetSim` window that the claims mention
(netsim_classes.h:110-135). -/
structure St where
  heapNodes : List (NodeId × NodeData)
  heapEdges : List (EdgeId × EdgeData)
  nodes : List NodeId
  edges : List EdgeId
  edgeSourceNode : Option NodeId
  isCreatingEdge : Bool
  tempEdgeLine : Bool
  lastSelectedItems : List Item
  nextNodeId : Nat
  nextEdgeId : Nat
  msgs : List String
  deriving Repr, DecidableEq

/-- The freshly started window before any interaction (all lists empty,
`edgeSourceNode(nullptr)`, `isCreatingEdge(false)`; netsim_window.cpp:273-275). -/
def St.empty : St :=
  { heapNodes := [], heapEdges := [], nodes := [], edges := [],
    edgeSourceNode := none, isCreatingEdge := false, tempEdgeLine := false,
    lastSelectedItems := [], nextNodeId := 0, nextEdgeId := 0, msgs := [] }

/-- `NetSim::AddNodeAt` (netsim_window.cpp:663-669): construct a node
(`NetworkNode` constructor, netsim_window.cpp:9-21, default z-value, empty
incident list), add it to the scene and append it to `nodes`. -/
def AddNodeAt (s : St) (x y : ℚ) (lbl : String) : St × NodeId :=
  let i := s.nextNodeId
  ({ s with
      heapNodes := s.heapNodes ++
        [(i, { x := x, y := y, lbl := lbl, edgeList := [],
               z := NetworkNode.DEFAULT_ZVALUE, selected := false })],
      nodes := s.nodes ++ [i],
      nextNodeId := i + 1,
      msgs := s.msgs ++ ["Added node: " ++ lbl] }, i)

/-- `NetworkNode::addEdge(NetworkEdge*)` (netsim_window.cpp:60-62):
append to the node's incident-edge list. -/
def nodeAddEdge (h : List (NodeId × NodeData)) (n : NodeId) (e : EdgeId) :
    List (NodeId × NodeData) :=
  updVal n (fun d => { d with edgeList := d.edgeList ++ [e] }) h

/-- `NetworkNode::deleteEdge` (netsim_window.cpp:72-74):
`edgeList.removeOne(edge)` removes the first occurrence. -/
def nodeDeleteEdge (h : List (NodeId × NodeData)) (n : NodeId) (e : EdgeId) :
    List (NodeId × NodeData) :=
  updVal n (fun d => { d with edgeList := d.edgeList.erase e }) h

/-- `NetSim::AddEdge` (netsim_window.cpp:685-696): after the null-pointer
guard (call sites always pass pointers to live nodes, so the guard is
modelled as a liveness check) it constructs the edge, registers it in BOTH
endpoints' incident lists, adds it to the scene and appends it to `edges`.
There is no self-loop check on this path; when `src = dst` the two
registrations append the edge to the same node's list twice. -/
def AddEdge (s : St) (src dst : NodeId) (directed : Bool) (lbl : String) : St :=
  if (findVal src s.heapNodes).isNone ∨ (findVal dst s.heapNodes).isNone then s
  else
    let e := s.nextEdgeId
    { s with
        heapNodes := nodeAddEdge (nodeAddEdge s.heapNodes src e) dst e,
        heapEdges := s.heapEdges ++
          [(e, { src := src, dst := dst, directed := directed, lbl := lbl,
                 z := NetworkEdge.DEFAULT_ZVALUE, selected := false })],
        edges := s.edges ++ [e],
        nextEdgeId := e + 1,
        msgs := s.msgs ++ ["Edge created successfully."] }

/-- `NetSim::cleanupEdgeCreation` (netsim_window.cpp:336-344): destroy the
rubber-band preview line and reset the edge-creation state. -/
def cleanupEdgeCreation (s : St) : St :=
  { s with tempEdgeLine := false, edgeSourceNode := none, isCreatingEdge := false }

/-- `NetSim::onAddEdge` (netsim_window.cpp:672-682): with no stored source
node it only shows an informational message; otherwise it raises the
creating-edge flag. -/
def onAddEdge (s : St) : St :=
  match s.edgeSourceNode with
  | none =>
      { s with msgs := s.msgs ++
          ["Please right-click on a source node first, then select 'Add edge from this Node'"] }
  | some _ =>
      { s with isCreatingEdge := true,
               msgs := s.msgs ++ ["Click on destination node for the edge..."] }

/-- The context-menu "Add edge" lambda (netsim_window.cpp:429-439): record
the clicked node as the edge source, raise the flag and create the
rubber-band preview line. -/
def ctxAddEdgeFrom (s : St) (t : NodeId) : St :=
  { s with edgeSourceNode := some t, isCreatingEdge := true, tempEdgeLine := true }

/-- The context-menu "Delete Node" lambda (netsim_window.cpp:442-459):
walk `edges` from the back, destroy every edge whose source or destination
is the target (removing it from the scene, the heap and `edges`), then
remove and destroy the node itself.  Nothing is deregistered from the other
endpoints' incident lists and the edge-creation state is not touched. -/
def ctxDeleteNode (s : St) (t : NodeId) : St :=
  let isIncident : EdgeId → Bool := fun e =>
    match findVal e s.heapEdges with
    | some d => decide (d.src = t) || decide (d.dst = t)
    | none => false
  let removed := s.edges.filter isIncident
  { s with
      edges := s.edges.filter fun e => !(isIncident e),
      heapEdges := s.heapEdges.filter fun p => !(removed.contains p.1),
      nodes := s.nodes.erase t,
      heapNodes := eraseKey t s.heapNodes }

/-! ## Hit testing (`NetSim::getNodeAt`, netsim_window.cpp:886-913) -/

/-- A `NetworkNode` is the ellipse `(-25,-25,50,50)` positioned at the node's
coordinates, i.e. the disc of radius 25 about `(x, y)`; `shape().contains`
is exact membership in that disc. -/
def nodeContains (d : NodeData) (px py : ℚ) : Bool :=
  decide ((px - d.x) ^ 2 + (py - d.y) ^ 2 ≤ 625)

def clampQ (lo v hi : ℚ) : ℚ := max lo (min v hi)

/-- `scene->items(pickRect)` keeps the items whose shape intersects the
square of half-side `tol` centred at the query point; for the node's disc
this is equivalent to the clamped centre-to-rectangle distance test. -/
def nodeIntersectsPick (d : NodeData) (px py tol : ℚ) : Bool :=
  let cx := clampQ (px - tol) d.x (px + tol)
  let cy := clampQ (py - tol) d.y (py + tol)
  decide ((cx - d.x) ^ 2 + (cy - d.y) ^ 2 ≤ 625)

/-- Descending z-value ordering used by the `std::sort` call
(netsim_window.cpp:899-902). -/
def zGE (a b : NodeId × NodeData) : Prop := b.2.z ≤ a.2.z

instance : DecidableRel zGE := fun a b => inferInstanceAs (Decidable (b.2.z ≤ a.2.z))

instance : IsTotal (NodeId × NodeData) zGE := ⟨fun a b => le_total b.2.z a.2.z⟩

instance : IsTrans (NodeId × NodeData) zGE := ⟨fun _ _ _ h1 h2 => le_trans h2 h1⟩

/-- `NetSim::getNodeAt` (netsim_window.cpp:886-913): collect the scene items
intersecting the 10-unit pick square, sort them by descending z-value, and
return the first `NetworkNode` whose shape exactly contains the query point.
Non-node items are skipped by the `dynamic_cast`, so only node items are
enumerated; `std::sort` is unstable, and we fix insertion sort as one of its
admissible orders (no claim depends on the tie order). -/
def getNodeAt (s : St) (px py : ℚ) : Option NodeId :=
  let cands := s.heapNodes.filter fun p => nodeIntersectsPick p.2 px py 10
  let sorted := List.insertionSort zGE cands
  (sorted.find? fun p => nodeContains p.2 px py).map (·.1)

/-! ## Selection machinery -/

/-- `scene->selectedItems()`: the live items whose selection flag is set.
Qt returns them in no particular order; the model fixes nodes (heap order)
followed by edges.  No modelled code path depends on this order. -/
def selectedItems (s : St) : List Item :=
  (s.heapNodes.filter fun p => p.2.selected).map (fun p => Item.node p.1) ++
  (s.heapEdges.filter fun p => p.2.selected).map (fun p => Item.edge p.1)

/-- Scene-side primitive: Qt flips an item's selection flag (user click,
rubber band, `clearSelection`, or the program's own `setSelected` calls).
Used to build the scenario states on which the handlers below run. -/
def sceneSetSelected (s : St) (it : Item) (b : Bool) : St :=
  match it with
  | Item.node n => { s with heapNodes := updVal n (fun d => { d with selected := b }) s.heapNodes }
  | Item.edge e => { s with heapEdges := updVal e (fun d => { d with selected := b }) s.heapEdges }

/-- `node->setSelected(true)` guarded by `node->scene()`
(netsim_window.cpp:810-813); a live node is always in the scene. -/
def setNodeSelectedTrue (st : St) (n : NodeId) : St :=
  { st with heapNodes := updVal n (fun d => { d with selected := true }) st.heapNodes }

/-- One step of the endpoint-forcing loop (netsim_window.cpp:808-815): a
selected edge selects both of its live endpoints. -/
def forceStep (st : St) (p : EdgeId × EdgeData) : St :=
  if p.2.selected then setNodeSelectedTrue (setNodeSelectedTrue st p.2.src) p.2.dst else st

/-- The first loop of `onSelectionChanged`: iterate over the snapshot of
selected items and select the endpoints of every selected edge.  (Each
`setSelected(true)` re-fires `selectionChanged`; the re-entrant runs repeat
the same idempotent flag/z updates and the outermost run, which sees the
final selection, writes the state last, so the handler is modelled as a
single non-re-entrant pass.) -/
def forceEdgeEndpoints (s : St) : St :=
  s.heapEdges.foldl forceStep s

/-- `item->setZValue(c)` on an edge pointer (no-op when the id is dead,
modelling that only live objects are ever written through). -/
def setEdgeZ (c : Int) (st : St) (e : EdgeId) : St :=
  { st with heapEdges := updVal e (fun d => { d with z := c }) st.heapEdges }

/-- `item->setZValue(c)` on a node pointer. -/
def setNodeZ (c : Int) (st : St) (n : NodeId) : St :=
  { st with heapNodes := updVal n (fun d => { d with z := c }) st.heapNodes }

/-- One step of the z-reset loop (netsim_window.cpp:841-850): a node returns
to `NetworkNode::DEFAULT_ZVALUE` and drags every edge in its incident list
down to `NetworkEdge::DEFAULT_ZVALUE`; an edge returns to
`NetworkEdge::DEFAULT_ZVALUE`.  A `dynamic_cast` on an already-destroyed
item is undefined behaviour in the source; the model skips dead ids. -/
def resetItemZ (st : St) (it : Item) : St :=
  match it with
  | Item.node n =>
      match findVal n st.heapNodes with
      | some nd =>
          nd.edgeList.foldl (setEdgeZ NetworkEdge.DEFAULT_ZVALUE)
            (setNodeZ NetworkNode.DEFAULT_ZVALUE st n)
      | none => st
  | Item.edge e => setEdgeZ NetworkEdge.DEFAULT_ZVALUE st e

/-- One step of the z-promotion loop (netsim_window.cpp:858-867): a selected
node is raised to `NetworkNode::SELECTED_ZVALUE` and raises every edge in
its incident list to `NetworkEdge::SELECTED_ZVALUE`; a selected edge is
raised to `NetworkEdge::SELECTED_ZVALUE`. -/
def promoteItemZ (st : St) (it : Item) : St :=
  match it with
  | Item.node n =>
      match findVal n st.heapNodes with
      | some nd =>
          nd.edgeList.foldl (setEdgeZ NetworkEdge.SELECTED_ZVALUE)
            (setNodeZ NetworkNode.SELECTED_ZVALUE st n)
      | none => st
  | Item.edge e => setEdgeZ NetworkEdge.SELECTED_ZVALUE st e

/-- `NetSim::onSelectionChanged` (netsim_window.cpp:803-871): force endpoint
selection, reset the z-values of the previously selected items that left the
selection, return early when nothing is selected (leaving
`lastSelectedItems` stale), otherwise promote every selected item and record
the selection.  The status-bar text is not modelled. -/
def onSelectionChanged (s : St) : St :=
  let s1 := forceEdgeEndpoints s
  let sel := selectedItems s1
  let toReset := s1.lastSelectedItems.filter fun it => !(decide (it ∈ sel))
  let s2 := toReset.foldl resetItemZ s1
  if sel.isEmpty then s2
  else
    let s3 := sel.foldl promoteItemZ s2
    { s3 with lastSelectedItems := sel }

/-! ## Deletion of the current selection
(`NetSim::onDeleteSelected`, netsim_window.cpp:699-742) -/

/-- One turn of the inner edge-removal loop (netsim_window.cpp:719-725):
`edge = nodeEdges[i]` is removed from the scene and destroyed, and then
`edges.removeAt(i)` is executed — with `i` an index into `nodeEdges`, not
into `edges` (`QList::removeAt` out of range is modelled as a no-op). -/
def delEdgeStep (nodeEdges : List EdgeId) (s : St) (i : Nat) : St :=
  let e := nodeEdges.getD i 0
  { s with heapEdges := eraseKey e s.heapEdges, edges := s.edges.eraseIdx i }

/-- `for (int i = nodeEdges.size() - 1; i >= 0; i--)` running `delEdgeStep`. -/
def delEdgesLoop (nodeEdges : List EdgeId) (s : St) : Nat → St
  | 0 => s
  | i + 1 => delEdgesLoop nodeEdges (delEdgeStep nodeEdges s i) i

/-- Processing one selected item (netsim_window.cpp:715-739).  A node: run
the incident-edge loop over a snapshot of its own edge list, then remove and
destroy the node.  An edge: deregister it from both endpoints, remove it
from `edges`, the scene and the heap.  The snapshot list may hold items
already destroyed earlier in the same pass (a dangling-pointer
`dynamic_cast`, undefined behaviour in the source); the model skips them. -/
def deleteSelectedStep (s : St) (it : Item) : St :=
  match it with
  | Item.node n =>
      match findVal n s.heapNodes with
      | some nd =>
          let s1 := delEdgesLoop nd.edgeList s nd.edgeList.length
          { s1 with nodes := s1.nodes.erase n, heapNodes := eraseKey n s1.heapNodes }
      | none => s
  | Item.edge e =>
      match findVal e s.heapEdges with
      | some ed =>
          { s with
              heapNodes := nodeDeleteEdge (nodeDeleteEdge s.heapNodes ed.src e) ed.dst e,
              edges := s.edges.erase e,
              heapEdges := eraseKey e s.heapEdges }
      | none => s

/-- `NetSim::onDeleteSelected` (netsim_window.cpp:699-742). -/
def onDeleteSelected (s : St) : St :=
  let sel := selectedItems s
  if sel.isEmpty then { s with msgs := s.msgs ++ ["No items selected."] }
  else
    let s0 := { s with lastSelectedItems := s.lastSelectedItems.filter fun it => decide (it ∈ sel) }
    let s1 := sel.foldl deleteSelectedStep s0
    { s1 with msgs := s1.msgs ++ ["Deleted " ++ toString sel.length ++ " item(s)"] }

/-! ## The interactive left-click path
(`NetSim::eventFilter`, left button without Ctrl, netsim_window.cpp:560-585) -/

/-- The edge-creation branch followed by the trailing `onSelectionChanged()`
call.  When a destination node different from the stored source is hit, the
`NetworkEdge` constructor runs (it registers NOTHING in the endpoints'
incident lists), the edge joins the scene and `edges`, and the creation
state is cleaned up; a click on the source itself warns and cleans up; any
other click leaves the creation state alone.  A live source pointer is
guaranteed whenever `isCreatingEdge` holds (both code paths that raise the
flag store a node first), so the null-source constructor branch is
unreachable and modelled as a no-op. -/
def interactiveLeftClick (s : St) (px py : ℚ) : St :=
  let s1 :=
    if s.isCreatingEdge then
      let destNode := getNodeAt s px py
      match destNode with
      | some d =>
          if some d ≠ s.edgeSourceNode then
            match s.edgeSourceNode with
            | some srcN =>
                let e := s.nextEdgeId
                cleanupEdgeCreation
                  { s with
                      heapEdges := s.heapEdges ++
                        [(e, { src := srcN, dst := d, directed := false,
                               lbl := "edge" ++ toString (s.edges.length + 1),
                               z := NetworkEdge.DEFAULT_ZVALUE, selected := false })],
                      edges := s.edges ++ [e],
                      nextEdgeId := e + 1,
                      msgs := s.msgs ++ ["Edge created successfully."] }
            | none => s
          else
            cleanupEdgeCreation
              { s with msgs := s.msgs ++ ["Cannot create an edge from a node to itself."] }
      | none =>
          if s.edgeSourceNode = none then
            cleanupEdgeCreation
              { s with msgs := s.msgs ++ ["Cannot create an edge from a node to itself."] }
          else s
    else s
  onSelectionChanged s1

/-! ## Viewport transform and wheel zoom -/

/-- The view transform restricted to what the program uses: a uniform scale
and a translation, mapping scene coordinates to viewport coordinates. -/
structure ViewTransform where
  scale : ℚ
  tx : ℚ
  ty : ℚ
  deriving Repr, DecidableEq

def toScreenX (T : ViewTransform) (x : ℚ) : ℚ := T.scale * x + T.tx

def toScreenY (T : ViewTransform) (y : ℚ) : ℚ := T.scale * y + T.ty

def toSceneX (T : ViewTransform) (sx : ℚ) : ℚ := (sx - T.tx) / T.scale

def toSceneY (T : ViewTransform) (sy : ℚ) : ℚ := (sy - T.ty) / T.scale

/-- `QGraphicsView::scale(f, f)` under
`setTransformationAnchor(AnchorUnderMouse)` (netsim_window.cpp:296): the
scale is multiplied by `f` and the translation is readjusted so that the
scene point currently under the mouse keeps its viewport position. -/
def scaleAnchored (T : ViewTransform) (f mx my : ℚ) : ViewTransform :=
  let ax := toSceneX T mx
  let ay := toSceneY T my
  let s' := T.scale * f
  { scale := s', tx := mx - s' * ax, ty := my - s' * ay }

/-- `NetSim::handleZoom` (netsim_window.cpp:744-766): a non-null wheel delta
with positive vertical component zooms in by `1.15`, any other non-null
delta zooms out by `1/1.15`; the scaling is applied through the
anchored-under-mouse transform. -/
def handleZoom (T : ViewTransform) (deltaX deltaY : Int) (mx my : ℚ) : ViewTransform :=
  let zoomFactor : ℚ := 115 / 100
  let scaleFactor : ℚ :=
    if ¬(deltaX = 0 ∧ deltaY = 0) then
      if deltaY > 0 then zoomFactor else 1 / zoomFactor
    else 1
  scaleAnchored T scaleFactor mx my

/-! ## Association-list and fold lemmas -/

theorem findVal_updVal {α : Type} (k m : Nat) (f : α → α) (h : List (Nat × α)) :
    findVal m (updVal k f h) = if m = k then (findVal m h).map f else findVal m h := by
  induction h with
  | nil => simp [findVal, updVal]
  | cons p t ih =>
      by_cases hpk : p.1 = k
      · by_cases hmk : m = k
        · simp [findVal, updVal, hpk, hmk]
        · have : ¬ p.1 = m := by
            intro hc; exact hmk (by rw [← hc, hpk])
          simp only [updVal, List.map_cons, if_pos hpk, findVal, hmk, if_neg this, if_false]
          simpa [updVal, hmk] using ih
      · by_cases hpm : p.1 = m
        · have hmk : ¬ m = k := by
            intro hc; exact hpk (by rw [hpm, hc])
          simp [findVal, updVal, hpk, hpm, hmk]
        · simp only [updVal, List.map_cons, if_neg hpk, findVal, if_neg hpm]
          simpa [updVal] using ih

theorem findVal_eraseKey {α : Type} (k m : Nat) (h : List (Nat × α)) :
    findVal m (eraseKey k h) = if m = k then none else findVal m h := by
  induction h with
  | nil => simp [findVal, eraseKey]
  | cons p t ih =>
      by_cases hpk : p.1 = k
      · by_cases hmk : m = k
        · rw [eraseKey, if_pos hpk, ih, if_pos hmk, if_pos hmk]
        · have hpm : ¬ p.1 = m := fun hc => hmk (by rw [← hc, hpk])
          rw [eraseKey, if_pos hpk, ih, if_neg hmk, if_neg hmk, findVal, if_neg hpm]
      · by_cases hpm : p.1 = m
        · have hmk : ¬ m = k := fun hc => hpk (by rw [hpm, hc])
          rw [eraseKey, if_neg hpk, findVal, if_pos hpm, if_neg hmk, findVal, if_pos hpm]
        · rw [eraseKey, if_neg hpk, findVal, if_neg hpm, ih, findVal, if_neg hpm]

theorem findVal_append {α : Type} (k : Nat) (h1 h2 : List (Nat × α)) :
    findVal k (h1 ++ h2) =
      match findVal k h1 with
      | some a => some a
      | none => findVal k h2 := by
  induction h1 with
  | nil => simp [findVal]
  | cons p t ih =>
      by_cases hpk : p.1 = k
      · simp [findVal, hpk]
      · simpa [findVal, hpk] using ih

theorem findVal_mem {α : Type} {k : Nat} {a : α} :
    ∀ {h : List (Nat × α)}, findVal k h = some a → (k, a) ∈ h := by
  intro h
  induction h with
  | nil => simp [findVal]
  | cons p t ih =>
      obtain ⟨p1, p2⟩ := p
      intro he
      by_cases hpk : p1 = k
      · subst hpk
        simp [findVal] at he
        subst he
        exact List.mem_cons_self _ _
      · simp [findVal, hpk] at he
        exact List.mem_cons_of_mem _ (ih he)

/-- A fold preserves any invariant its steps preserve. -/
theorem foldl_inv {σ α : Type} (step : σ → α → σ) (P : σ → Prop) :
    ∀ (l : List α) (s : σ), (∀ st a, a ∈ l → P st → P (step st a)) → P s →
      P (l.foldl step s)
  | [], _, _, hs => hs
  | a :: l, s, hstep, hs =>
      foldl_inv step P l (step s a)
        (fun st b hb => hstep st b (List.mem_cons_of_mem _ hb))
        (hstep s a (List.mem_cons_self _ _) hs)

/-- A fold establishes `P` if some processed element establishes it from `Q`,
`Q` is preserved until then and `P` is preserved afterwards. -/
theorem foldl_establish {σ α : Type} (step : σ → α → σ) (P Q : σ → Prop) :
    ∀ (l : List α) (a : α), a ∈ l →
      (∀ st b, b ∈ l → Q st → Q (step st b)) →
      (∀ st, Q st → P (step st a)) →
      (∀ st b, b ∈ l → P st → P (step st b)) →
      ∀ s, Q s → P (l.foldl step s) := by
  intro l
  induction l with
  | nil => intro a ha; exact absurd ha (List.not_mem_nil a)
  | cons b l ih =>
      intro a ha hq hest hp s hQs
      rcases List.mem_cons.mp ha with hab | hal
      · subst hab
        exact foldl_inv step P l (step s a)
          (fun st c hc => hp st c (List.mem_cons_of_mem _ hc))
          (hest s hQs)
      · exact ih a hal
          (fun st c hc => hq st c (List.mem_cons_of_mem _ hc))
          hest
          (fun st c hc => hp st c (List.mem_cons_of_mem _ hc))
          (step s b) (hq s b (List.mem_cons_self _ _) hQs)

/-! ## Frame lemmas: the selection handler touches only the heaps and
`lastSelectedItems` -/

/-- All window fields other than the two heaps and `lastSelectedItems`
agree. -/
def SameCore (a b : St) : Prop :=
  b.nodes = a.nodes ∧ b.edges = a.edges ∧ b.edgeSourceNode = a.edgeSourceNode ∧
  b.isCreatingEdge = a.isCreatingEdge ∧ b.tempEdgeLine = a.tempEdgeLine ∧
  b.nextNodeId = a.nextNodeId ∧ b.nextEdgeId = a.nextEdgeId ∧ b.msgs = a.msgs

theorem sameCore_refl (a : St) : SameCore a a := by
  simp [SameCore]

theorem sameCore_trans {a b c : St} (h1 : SameCore a b) (h2 : SameCore b c) :
    SameCore a c := by
  obtain ⟨e1, e2, e3, e4, e5, e6, e7, e8⟩ := h1
  obtain ⟨f1, f2, f3, f4, f5, f6, f7, f8⟩ := h2
  exact ⟨f1.trans e1, f2.trans e2, f3.trans e3, f4.trans e4, f5.trans e5,
    f6.trans e6, f7.trans e7, f8.trans e8⟩

theorem sameCore_setHeapNodes (st : St) (h' : List (NodeId × NodeData)) :
    SameCore st { st with heapNodes := h' } := by
  simp [SameCore]

theorem sameCore_setHeapEdges (st : St) (h' : List (EdgeId × EdgeData)) :
    SameCore st { st with heapEdges := h' } := by
  simp [SameCore]

theorem sameCore_setLastSelected (st : St) (l : List Item) :
    SameCore st { st with lastSelectedItems := l } := by
  simp [SameCore]

theorem sameCore_forceStep (st : St) (p : EdgeId × EdgeData) :
    SameCore st (forceStep st p) := by
  unfold forceStep setNodeSelectedTrue
  split
  · exact sameCore_setHeapNodes _ _
  · exact sameCore_refl st

theorem sameCore_setEdgeZ (c : Int) (st : St) (e : EdgeId) :
    SameCore st (setEdgeZ c st e) :=
  sameCore_setHeapEdges st _

theorem sameCore_setNodeZ (c : Int) (st : St) (n : NodeId) :
    SameCore st (setNodeZ c st n) :=
  sameCore_setHeapNodes st _

theorem sameCore_resetItemZ (st : St) (it : Item) : SameCore st (resetItemZ st it) := by
  cases it with
  | node n =>
      simp only [resetItemZ]
      cases hn : findVal n st.heapNodes with
      | none => exact sameCore_refl st
      | some nd =>
          exact foldl_inv _ (SameCore st) nd.edgeList _
            (fun s2 e _ hs2 => sameCore_trans hs2 (sameCore_setEdgeZ _ s2 e))
            (sameCore_setNodeZ _ st n)
  | edge e =>
      simp only [resetItemZ]
      exact sameCore_setEdgeZ _ st e

theorem sameCore_promoteItemZ (st : St) (it : Item) : SameCore st (promoteItemZ st it) := by
  cases it with
  | node n =>
      simp only [promoteItemZ]
      cases hn : findVal n st.heapNodes with
      | none => exact sameCore_refl st
      | some nd =>
          exact foldl_inv _ (SameCore st) nd.edgeList _
            (fun s2 e _ hs2 => sameCore_trans hs2 (sameCore_setEdgeZ _ s2 e))
            (sameCore_setNodeZ _ st n)
  | edge e =>
      simp only [promoteItemZ]
      exact sameCore_setEdgeZ _ st e

theorem sameCore_onSelectionChanged (s : St) : SameCore s (onSelectionChanged s) := by
  unfold onSelectionChanged
  dsimp only
  have h1 : SameCore s (forceEdgeEndpoints s) :=
    foldl_inv _ (SameCore s) s.heapEdges s
      (fun st p _ hst => sameCore_trans hst (sameCore_forceStep st p)) (sameCore_refl s)
  have h2 : ∀ (l : List Item) (st : St), SameCore s st → SameCore s (l.foldl resetItemZ st) :=
    fun l st hst => foldl_inv _ (SameCore s) l st
      (fun s2 it _ hs2 => sameCore_trans hs2 (sameCore_resetItemZ s2 it)) hst
  have h3 : ∀ (l : List Item) (st : St), SameCore s st → SameCore s (l.foldl promoteItemZ st) :=
    fun l st hst => foldl_inv _ (SameCore s) l st
      (fun s2 it _ hs2 => sameCore_trans hs2 (sameCore_promoteItemZ s2 it)) hst
  split
  · exact h2 _ _ h1
  · exact sameCore_trans (h3 _ _ (h2 _ _ h1)) (sameCore_setLastSelected _ _)

/-! ## Characterisation of the endpoint-forcing phase -/

/-- `n` gets force-selected by the first loop of `onSelectionChanged`:
some selected edge in `l` has `n` as an endpoint. -/
def forcedIn (l : List (EdgeId × EdgeData)) (n : NodeId) : Bool :=
  l.any fun p => p.2.selected && (decide (n = p.2.src) || decide (n = p.2.dst))

theorem findVal_mapCond {α : Type} (c : Nat → Bool) (f : α → α) (k : Nat) :
    ∀ (h : List (Nat × α)),
      findVal k (h.map fun q => if c q.1 then (q.1, f q.2) else q) =
        (findVal k h).map fun d => if c k then f d else d := by
  intro h
  induction h with
  | nil => simp [findVal]
  | cons p t ih =>
      by_cases hpk : p.1 = k
      · subst hpk
        by_cases hc : c p.1
        · simp [findVal, hc]
        · simp [findVal, hc]
      · by_cases hc : c p.1
        · simpa [findVal, hc, hpk] using ih
        · simpa [findVal, hc, hpk] using ih

theorem forceStep_eq (st : St) (p : EdgeId × EdgeData) :
    forceStep st p =
      { st with heapNodes := st.heapNodes.map fun q =>
          if p.2.selected && (decide (q.1 = p.2.src) || decide (q.1 = p.2.dst)) then
            (q.1, { q.2 with selected := true })
          else q } := by
  by_cases hsel : p.2.selected
  · unfold forceStep setNodeSelectedTrue updVal
    rw [if_pos hsel]
    simp only [List.map_map]
    congr 1
    apply List.map_congr_left
    intro q _
    obtain ⟨qi, qd⟩ := q
    simp only [Function.comp_apply, hsel, Bool.true_and]
    dsimp only
    by_cases h1 : qi = p.2.src
    · have hr : (decide (qi = p.2.src) || decide (qi = p.2.dst)) = true := by simp [h1]
      rw [if_pos h1, if_pos hr]
      dsimp only
      by_cases h2 : qi = p.2.dst
      · rw [if_pos h2]
      · rw [if_neg h2]
    · rw [if_neg h1]
      dsimp only
      by_cases h2 : qi = p.2.dst
      · have hr : (decide (qi = p.2.src) || decide (qi = p.2.dst)) = true := by simp [h2]
        rw [if_pos h2, if_pos hr]
      · have hr : ¬ ((decide (qi = p.2.src) || decide (qi = p.2.dst)) = true) := by
          simp [h1, h2]
        rw [if_neg h2, if_neg hr]
  · simp only [Bool.not_eq_true] at hsel
    unfold forceStep
    rw [if_neg (by simp [hsel])]
    have hmap : st.heapNodes.map (fun q =>
        if p.2.selected && (decide (q.1 = p.2.src) || decide (q.1 = p.2.dst)) then
          (q.1, { q.2 with selected := true })
        else q) = st.heapNodes := by
      simp [hsel]
    rw [hmap]

theorem foldl_forceStep_eq :
    ∀ (l : List (EdgeId × EdgeData)) (st : St),
      l.foldl forceStep st =
        { st with heapNodes := st.heapNodes.map fun q =>
            if forcedIn l q.1 then (q.1, { q.2 with selected := true }) else q } := by
  intro l
  induction l with
  | nil =>
      intro st
      simp [forcedIn]
  | cons p t ih =>
      intro st
      rw [List.foldl_cons, ih, forceStep_eq]
      simp only [List.map_map]
      congr 1
      apply List.map_congr_left
      intro q _
      obtain ⟨qi, qd⟩ := q
      have hcons : forcedIn (p :: t) qi =
          ((p.2.selected && (decide (qi = p.2.src) || decide (qi = p.2.dst))) || forcedIn t qi) := by
        simp [forcedIn, List.any_cons]
      simp only [Function.comp_apply]
      dsimp only
      by_cases hp : (p.2.selected && (decide (qi = p.2.src) || decide (qi = p.2.dst))) = true
      · rw [if_pos hp]
        dsimp only
        have hout : forcedIn (p :: t) qi = true := by rw [hcons, hp]; simp
        rw [if_pos hout]
        by_cases ht : forcedIn t qi = true
        · rw [if_pos ht]
        · rw [if_neg ht]
      · rw [if_neg hp]
        dsimp only
        have hout : forcedIn (p :: t) qi = forcedIn t qi := by
          rw [hcons]
          simp only [Bool.not_eq_true] at hp
          rw [hp]
          simp
        rw [hout]

theorem forceEdgeEndpoints_eq (s : St) :
    forceEdgeEndpoints s =
      { s with heapNodes := s.heapNodes.map fun q =>
          if forcedIn s.heapEdges q.1 then (q.1, { q.2 with selected := true }) else q } :=
  foldl_forceStep_eq s.heapEdges s

/-! ## Observations of a single item through the z phases -/

/-- The z-value of the edge object behind id `e` (`none` when destroyed). -/
def zEdge (s : St) (e : EdgeId) : Option Int := (findVal e s.heapEdges).map EdgeData.z

/-- The z-value of the node object behind id `n`. -/
def zNode (s : St) (n : NodeId) : Option Int := (findVal n s.heapNodes).map NodeData.z

/-- Incident-edge list and selection flag of the node behind id `n` — the
pieces of node state the z phases read but never write. -/
def nodeView (s : St) (n : NodeId) : Option (List EdgeId × Bool) :=
  (findVal n s.heapNodes).map fun d => (d.edgeList, d.selected)

/-- Selection flag of the edge behind id `e`. -/
def edgeSel (s : St) (e : EdgeId) : Option Bool := (findVal e s.heapEdges).map EdgeData.selected

theorem zEdge_setEdgeZ (c : Int) (st : St) (a e : EdgeId) :
    zEdge (setEdgeZ c st a) e =
      if e = a then (zEdge st e).map (fun _ => c) else zEdge st e := by
  unfold zEdge setEdgeZ
  rw [show ({ st with heapEdges := updVal a (fun d => { d with z := c }) st.heapEdges } : St).heapEdges
        = updVal a (fun d => { d with z := c }) st.heapEdges from rfl, findVal_updVal]
  by_cases h : e = a
  · cases hf : findVal e st.heapEdges <;> simp [h, hf]
  · simp [h]

theorem zNode_setEdgeZ (c : Int) (st : St) (a : EdgeId) (n : NodeId) :
    zNode (setEdgeZ c st a) n = zNode st n := rfl

theorem nodeView_setEdgeZ (c : Int) (st : St) (a : EdgeId) (n : NodeId) :
    nodeView (setEdgeZ c st a) n = nodeView st n := rfl

theorem edgeSel_setEdgeZ (c : Int) (st : St) (a e : EdgeId) :
    edgeSel (setEdgeZ c st a) e = edgeSel st e := by
  unfold edgeSel setEdgeZ
  rw [show ({ st with heapEdges := updVal a (fun d => { d with z := c }) st.heapEdges } : St).heapEdges
        = updVal a (fun d => { d with z := c }) st.heapEdges from rfl, findVal_updVal]
  by_cases h : e = a
  · cases hf : findVal e st.heapEdges <;> simp [h, hf]
  · simp [h]

theorem zNode_setNodeZ (c : Int) (st : St) (a n : NodeId) :
    zNode (setNodeZ c st a) n =
      if n = a then (zNode st n).map (fun _ => c) else zNode st n := by
  unfold zNode setNodeZ
  rw [show ({ st with heapNodes := updVal a (fun d => { d with z := c }) st.heapNodes } : St).heapNodes
        = updVal a (fun d => { d with z := c }) st.heapNodes from rfl, findVal_updVal]
  by_cases h : n = a
  · cases hf : findVal n st.heapNodes <;> simp [h, hf]
  · simp [h]

theorem zEdge_setNodeZ (c : Int) (st : St) (a : NodeId) (e : EdgeId) :
    zEdge (setNodeZ c st a) e = zEdge st e := rfl

theorem edgeSel_setNodeZ (c : Int) (st : St) (a : NodeId) (e : EdgeId) :
    edgeSel (setNodeZ c st a) e = edgeSel st e := rfl

theorem nodeView_setNodeZ (c : Int) (st : St) (a n : NodeId) :
    nodeView (setNodeZ c st a) n = nodeView st n := by
  unfold nodeView setNodeZ
  rw [show ({ st with heapNodes := updVal a (fun d => { d with z := c }) st.heapNodes } : St).heapNodes
        = updVal a (fun d => { d with z := c }) st.heapNodes from rfl, findVal_updVal]
  by_cases h : n = a
  · cases hf : findVal n st.heapNodes <;> simp [h, hf]
  · simp [h]

theorem zEdge_foldl_setEdgeZ (c : Int) :
    ∀ (l : List EdgeId) (st : St) (e : EdgeId),
      zEdge (l.foldl (setEdgeZ c) st) e =
        if e ∈ l then (zEdge st e).map (fun _ => c) else zEdge st e := by
  intro l
  induction l with
  | nil => intro st e; simp
  | cons a t ih =>
      intro st e
      rw [List.foldl_cons, ih, zEdge_setEdgeZ]
      by_cases hea : e = a
      · subst hea
        by_cases hel : e ∈ t <;> cases hf : findVal e st.heapEdges <;>
          simp [zEdge, hel, hf, List.mem_cons, Function.comp]
      · by_cases hel : e ∈ t <;> cases hf : findVal e st.heapEdges <;>
          simp [zEdge, hea, hel, hf, List.mem_cons, Function.comp]

theorem zNode_foldl_setEdgeZ (c : Int) (l : List EdgeId) (st : St) (n : NodeId) :
    zNode (l.foldl (setEdgeZ c) st) n = zNode st n :=
  foldl_inv _ (fun s2 => zNode s2 n = zNode st n) l st
    (fun s2 a _ h => (zNode_setEdgeZ c s2 a n).trans h) rfl

theorem nodeView_foldl_setEdgeZ (c : Int) (l : List EdgeId) (st : St) (n : NodeId) :
    nodeView (l.foldl (setEdgeZ c) st) n = nodeView st n :=
  foldl_inv _ (fun s2 => nodeView s2 n = nodeView st n) l st
    (fun s2 a _ h => (nodeView_setEdgeZ c s2 a n).trans h) rfl

theorem edgeSel_foldl_setEdgeZ (c : Int) (l : List EdgeId) (st : St) (e : EdgeId) :
    edgeSel (l.foldl (setEdgeZ c) st) e = edgeSel st e :=
  foldl_inv _ (fun s2 => edgeSel s2 e = edgeSel st e) l st
    (fun s2 a _ h => (edgeSel_setEdgeZ c s2 a e).trans h) rfl

theorem nodeView_resetItemZ (st : St) (it : Item) (n : NodeId) :
    nodeView (resetItemZ st it) n = nodeView st n := by
  cases it with
  | node k =>
      simp only [resetItemZ]
      cases hk : findVal k st.heapNodes with
      | none => rfl
      | some nd => rw [nodeView_foldl_setEdgeZ, nodeView_setNodeZ]
  | edge e => simp only [resetItemZ]; rw [nodeView_setEdgeZ]

theorem nodeView_promoteItemZ (st : St) (it : Item) (n : NodeId) :
    nodeView (promoteItemZ st it) n = nodeView st n := by
  cases it with
  | node k =>
      simp only [promoteItemZ]
      cases hk : findVal k st.heapNodes with
      | none => rfl
      | some nd => rw [nodeView_foldl_setEdgeZ, nodeView_setNodeZ]
  | edge e => simp only [promoteItemZ]; rw [nodeView_setEdgeZ]

theorem edgeSel_resetItemZ (st : St) (it : Item) (e : EdgeId) :
    edgeSel (resetItemZ st it) e = edgeSel st e := by
  cases it with
  | node k =>
      simp only [resetItemZ]
      cases hk : findVal k st.heapNodes with
      | none => rfl
      | some nd => rw [edgeSel_foldl_setEdgeZ]; rfl
  | edge a => simp only [resetItemZ]; rw [edgeSel_setEdgeZ]

theorem edgeSel_promoteItemZ (st : St) (it : Item) (e : EdgeId) :
    edgeSel (promoteItemZ st it) e = edgeSel st e := by
  cases it with
  | node k =>
      simp only [promoteItemZ]
      cases hk : findVal k st.heapNodes with
      | none => rfl
      | some nd => rw [edgeSel_foldl_setEdgeZ]; rfl
  | edge a => simp only [promoteItemZ]; rw [edgeSel_setEdgeZ]

theorem zEdge_resetItemZ_disj (st : St) (it : Item) (e : EdgeId) :
    zEdge (resetItemZ st it) e = zEdge st e ∨
    zEdge (resetItemZ st it) e = (zEdge st e).map (fun _ => NetworkEdge.DEFAULT_ZVALUE) := by
  cases it with
  | node k =>
      simp only [resetItemZ]
      cases hk : findVal k st.heapNodes with
      | none => exact Or.inl rfl
      | some nd =>
          rw [zEdge_foldl_setEdgeZ]
          by_cases hel : e ∈ nd.edgeList
          · exact Or.inr (by rw [if_pos hel, zEdge_setNodeZ])
          · exact Or.inl (by rw [if_neg hel, zEdge_setNodeZ])
  | edge a =>
      simp only [resetItemZ]
      rw [zEdge_setEdgeZ]
      by_cases hea : e = a
      · exact Or.inr (by rw [if_pos hea])
      · exact Or.inl (by rw [if_neg hea])

theorem zEdge_promoteItemZ_disj (st : St) (it : Item) (e : EdgeId) :
    zEdge (promoteItemZ st it) e = zEdge st e ∨
    zEdge (promoteItemZ st it) e = (zEdge st e).map (fun _ => NetworkEdge.SELECTED_ZVALUE) := by
  cases it with
  | node k =>
      simp only [promoteItemZ]
      cases hk : findVal k st.heapNodes with
      | none => exact Or.inl rfl
      | some nd =>
          rw [zEdge_foldl_setEdgeZ]
          by_cases hel : e ∈ nd.edgeList
          · exact Or.inr (by rw [if_pos hel, zEdge_setNodeZ])
          · exact Or.inl (by rw [if_neg hel, zEdge_setNodeZ])
  | edge a =>
      simp only [promoteItemZ]
      rw [zEdge_setEdgeZ]
      by_cases hea : e = a
      · exact Or.inr (by rw [if_pos hea])
      · exact Or.inl (by rw [if_neg hea])

theorem zEdge_promoteItemZ_node (st : St) (n : NodeId) (nd : NodeData) (e : EdgeId)
    (hn : findVal n st.heapNodes = some nd) (he : e ∈ nd.edgeList) :
    zEdge (promoteItemZ st (Item.node n)) e =
      (zEdge st e).map (fun _ => NetworkEdge.SELECTED_ZVALUE) := by
  simp only [promoteItemZ, hn]
  rw [zEdge_foldl_setEdgeZ, if_pos he, zEdge_setNodeZ]

theorem zEdge_resetItemZ_edge (st : St) (e : EdgeId) :
    zEdge (resetItemZ st (Item.edge e)) e =
      (zEdge st e).map (fun _ => NetworkEdge.DEFAULT_ZVALUE) := by
  simp only [resetItemZ]
  rw [zEdge_setEdgeZ, if_pos rfl]

theorem zEdge_promoteItemZ_untouched (st : St) (it : Item) (e : EdgeId)
    (hedge : ∀ k, it = Item.edge k → ¬ k = e)
    (hnode : ∀ n nd, it = Item.node n → findVal n st.heapNodes = some nd → e ∉ nd.edgeList) :
    zEdge (promoteItemZ st it) e = zEdge st e := by
  cases it with
  | node k =>
      simp only [promoteItemZ]
      cases hk : findVal k st.heapNodes with
      | none => rfl
      | some nd =>
          rw [zEdge_foldl_setEdgeZ, if_neg (hnode k nd rfl hk), zEdge_setNodeZ]
  | edge a =>
      simp only [promoteItemZ]
      rw [zEdge_setEdgeZ, if_neg (fun hc => hedge a rfl hc.symm)]

theorem zNode_resetItemZ_disj (st : St) (it : Item) (n : NodeId) :
    zNode (resetItemZ st it) n = zNode st n ∨
    zNode (resetItemZ st it) n = (zNode st n).map (fun _ => NetworkNode.DEFAULT_ZVALUE) := by
  cases it with
  | node k =>
      simp only [resetItemZ]
      cases hk : findVal k st.heapNodes with
      | none => exact Or.inl rfl
      | some nd =>
          rw [zNode_foldl_setEdgeZ, zNode_setNodeZ]
          by_cases hnk : n = k
          · exact Or.inr (by rw [if_pos hnk])
          · exact Or.inl (by rw [if_neg hnk])
  | edge a => exact Or.inl (by simp only [resetItemZ]; rw [zNode_setEdgeZ])

theorem zNode_resetItemZ_self (st : St) (n : NodeId) (nd : NodeData)
    (hn : findVal n st.heapNodes = some nd) :
    zNode (resetItemZ st (Item.node n)) n =
      (zNode st n).map (fun _ => NetworkNode.DEFAULT_ZVALUE) := by
  simp only [resetItemZ, hn]
  rw [zNode_foldl_setEdgeZ, zNode_setNodeZ, if_pos rfl]

theorem zNode_promoteItemZ_untouched (st : St) (it : Item) (n : NodeId)
    (h : ∀ k, it = Item.node k → ¬ k = n) :
    zNode (promoteItemZ st it) n = zNode st n := by
  cases it with
  | node k =>
      simp only [promoteItemZ]
      cases hk : findVal k st.heapNodes with
      | none => rfl
      | some nd =>
          rw [zNode_foldl_setEdgeZ, zNode_setNodeZ, if_neg (fun hc => h k rfl hc.symm)]
  | edge a => simp only [promoteItemZ]; rw [zNode_setEdgeZ]

/-! ## Selection membership and unique keys -/

theorem findVal_of_mem_nodup {α : Type} :
    ∀ {l : List (Nat × α)}, (l.map Prod.fst).Nodup →
      ∀ {k : Nat} {a : α}, (k, a) ∈ l → findVal k l = some a := by
  intro l
  induction l with
  | nil => intro _ k a h; exact absurd h (List.not_mem_nil _)
  | cons p t ih =>
      intro hnd k a hmem
      rw [List.map_cons, List.nodup_cons] at hnd
      rcases List.mem_cons.mp hmem with heq | hm
      · rw [findVal, if_pos (congrArg Prod.fst heq.symm)]
        rw [← heq]
      · have hk : ¬ p.1 = k := by
          intro hc
          exact hnd.1 (hc ▸ List.mem_map.mpr ⟨(k, a), hm, rfl⟩)
        rw [findVal, if_neg hk]
        exact ih hnd.2 hm

theorem mem_selectedItems_node (s : St) (n : NodeId) :
    Item.node n ∈ selectedItems s ↔ ∃ nd, (n, nd) ∈ s.heapNodes ∧ nd.selected = true := by
  constructor
  · intro hmem
    rcases List.mem_append.mp hmem with hA | hB
    · rcases List.mem_map.mp hA with ⟨p, hp, heq⟩
      rcases List.mem_filter.mp hp with ⟨hmem', hsel⟩
      obtain ⟨p1, p2⟩ := p
      have h1 : p1 = n := by simpa using heq
      subst h1
      exact ⟨p2, hmem', by simpa using hsel⟩
    · exfalso
      rcases List.mem_map.mp hB with ⟨p, _, heq⟩
      simp at heq
  · rintro ⟨nd, hmem, hsel⟩
    apply List.mem_append.mpr
    left
    exact List.mem_map.mpr ⟨(n, nd), List.mem_filter.mpr ⟨hmem, by simpa using hsel⟩, rfl⟩

theorem mem_selectedItems_edge (s : St) (e : EdgeId) :
    Item.edge e ∈ selectedItems s ↔ ∃ ed, (e, ed) ∈ s.heapEdges ∧ ed.selected = true := by
  constructor
  · intro hmem
    rcases List.mem_append.mp hmem with hA | hB
    · exfalso
      rcases List.mem_map.mp hA with ⟨p, _, heq⟩
      simp at heq
    · rcases List.mem_map.mp hB with ⟨p, hp, heq⟩
      rcases List.mem_filter.mp hp with ⟨hmem', hsel⟩
      obtain ⟨p1, p2⟩ := p
      have h1 : p1 = e := by simpa using heq
      subst h1
      exact ⟨p2, hmem', by simpa using hsel⟩
  · rintro ⟨ed, hmem, hsel⟩
    apply List.mem_append.mpr
    right
    exact List.mem_map.mpr ⟨(e, ed), List.mem_filter.mpr ⟨hmem, by simpa using hsel⟩, rfl⟩

theorem heapEdges_force (s : St) : (forceEdgeEndpoints s).heapEdges = s.heapEdges := by
  rw [forceEdgeEndpoints_eq]

theorem lastSelected_force (s : St) :
    (forceEdgeEndpoints s).lastSelectedItems = s.lastSelectedItems := by
  rw [forceEdgeEndpoints_eq]

theorem zEdge_force (s : St) (e : EdgeId) : zEdge (forceEdgeEndpoints s) e = zEdge s e := by
  unfold zEdge
  rw [heapEdges_force]

theorem findVal_force (s : St) (n : NodeId) :
    findVal n (forceEdgeEndpoints s).heapNodes =
      (findVal n s.heapNodes).map fun d =>
        if forcedIn s.heapEdges n then { d with selected := true } else d := by
  rw [forceEdgeEndpoints_eq]
  exact findVal_mapCond (forcedIn s.heapEdges) (fun d => { d with selected := true }) n s.heapNodes

theorem mem_selectedItems_force_node (s : St) (n : NodeId) :
    Item.node n ∈ selectedItems (forceEdgeEndpoints s) ↔
      ∃ nd, (n, nd) ∈ s.heapNodes ∧ (nd.selected = true ∨ forcedIn s.heapEdges n = true) := by
  rw [mem_selectedItems_node, forceEdgeEndpoints_eq]
  dsimp only
  constructor
  · rintro ⟨nd', hmem, hsel⟩
    rcases List.mem_map.mp hmem with ⟨q, hq, hFq⟩
    by_cases hc : forcedIn s.heapEdges q.1
    · rw [if_pos hc] at hFq
      have h1 : q.1 = n := congrArg Prod.fst hFq
      refine ⟨q.2, ?_, Or.inr (h1 ▸ hc)⟩
      rw [← h1]
      cases q
      exact hq
    · rw [if_neg hc] at hFq
      have h1 : q.1 = n := congrArg Prod.fst hFq
      have h2 : q.2 = nd' := congrArg Prod.snd hFq
      refine ⟨q.2, ?_, Or.inl (h2 ▸ hsel)⟩
      rw [← h1]
      cases q
      exact hq
  · rintro ⟨nd, hmem, hcase⟩
    by_cases hc : forcedIn s.heapEdges n
    · refine ⟨{ nd with selected := true }, ?_, rfl⟩
      apply List.mem_map.mpr
      refine ⟨(n, nd), hmem, ?_⟩
      dsimp only
      rw [if_pos hc]
    · rcases hcase with hsel | hforced
      · refine ⟨nd, ?_, hsel⟩
        apply List.mem_map.mpr
        refine ⟨(n, nd), hmem, ?_⟩
        dsimp only
        rw [if_neg hc]
      · exact absurd hforced hc

theorem mem_selectedItems_force_edge (s : St) (e : EdgeId) :
    Item.edge e ∈ selectedItems (forceEdgeEndpoints s) ↔
      ∃ ed, (e, ed) ∈ s.heapEdges ∧ ed.selected = true := by
  rw [mem_selectedItems_edge, heapEdges_force]

/-! ## The z-value of a single item across one full `onSelectionChanged` run -/

theorem nodeView_some {st : St} {n : NodeId} {v : List EdgeId × Bool}
    (h : nodeView st n = some v) :
    ∃ d, findVal n st.heapNodes = some d ∧ d.edgeList = v.1 ∧ d.selected = v.2 := by
  unfold nodeView at h
  cases hf : findVal n st.heapNodes with
  | none => rw [hf] at h; simp at h
  | some d =>
      rw [hf] at h
      simp only [Option.map_some', Option.some.injEq] at h
      subst h
      exact ⟨d, rfl, rfl, rfl⟩

/-- After a full selection-changed pass, an edge held in the incident list
of a selected (or force-selected) live node ends at the highlighted tier,
whether or not the edge itself is selected. -/
theorem zEdge_onSelectionChanged_promoted (s : St) (n : NodeId) (nd : NodeData) (e : EdgeId)
    (hn : findVal n s.heapNodes = some nd)
    (hsel : nd.selected = true ∨ forcedIn s.heapEdges n = true)
    (he : e ∈ nd.edgeList)
    (hlive : (findVal e s.heapEdges).isSome = true) :
    zEdge (onSelectionChanged s) e = some NetworkEdge.SELECTED_ZVALUE := by
  have hview1 : nodeView (forceEdgeEndpoints s) n = some (nd.edgeList, true) := by
    unfold nodeView
    rw [findVal_force, hn]
    by_cases hc : forcedIn s.heapEdges n
    · simp [hc]
    · rcases hsel with h | h
      · simp [hc, h]
      · exact absurd h hc
  have hmemSel : Item.node n ∈ selectedItems (forceEdgeEndpoints s) :=
    (mem_selectedItems_force_node s n).mpr ⟨nd, findVal_mem hn, hsel⟩
  have hlive1 : (zEdge (forceEdgeEndpoints s) e).isSome = true := by
    rw [zEdge_force]
    unfold zEdge
    rw [Option.isSome_map']
    exact hlive
  unfold onSelectionChanged
  dsimp only
  rw [if_neg (by
    intro hemp
    rw [List.isEmpty_iff] at hemp
    rw [hemp] at hmemSel
    exact List.not_mem_nil _ hmemSel)]
  show zEdge
    { (selectedItems (forceEdgeEndpoints s)).foldl promoteItemZ _ with
        lastSelectedItems := selectedItems (forceEdgeEndpoints s) } e = _
  have hQ : ∀ st it, (nodeView st n = some (nd.edgeList, true) ∧ (zEdge st e).isSome = true) →
      (nodeView (resetItemZ st it) n = some (nd.edgeList, true) ∧
        (zEdge (resetItemZ st it) e).isSome = true) := by
    intro st it ⟨h1, h2⟩
    refine ⟨(nodeView_resetItemZ st it n).trans h1, ?_⟩
    rcases zEdge_resetItemZ_disj st it e with hd | hd
    · rw [hd]; exact h2
    · rw [hd, Option.isSome_map']; exact h2
  have hQp : ∀ st it, (nodeView st n = some (nd.edgeList, true) ∧ (zEdge st e).isSome = true) →
      (nodeView (promoteItemZ st it) n = some (nd.edgeList, true) ∧
        (zEdge (promoteItemZ st it) e).isSome = true) := by
    intro st it ⟨h1, h2⟩
    refine ⟨(nodeView_promoteItemZ st it n).trans h1, ?_⟩
    rcases zEdge_promoteItemZ_disj st it e with hd | hd
    · rw [hd]; exact h2
    · rw [hd, Option.isSome_map']; exact h2
  have hQ2 : nodeView ((List.filter (fun it => !(decide (it ∈ selectedItems (forceEdgeEndpoints s))))
        (forceEdgeEndpoints s).lastSelectedItems).foldl resetItemZ (forceEdgeEndpoints s)) n =
          some (nd.edgeList, true) ∧
      (zEdge ((List.filter (fun it => !(decide (it ∈ selectedItems (forceEdgeEndpoints s))))
        (forceEdgeEndpoints s).lastSelectedItems).foldl resetItemZ (forceEdgeEndpoints s)) e).isSome = true :=
    foldl_inv resetItemZ _ _ (forceEdgeEndpoints s)
      (fun st it _ h => hQ st it h) ⟨hview1, hlive1⟩
  have hfinal : zEdge ((selectedItems (forceEdgeEndpoints s)).foldl promoteItemZ
      ((List.filter (fun it => !(decide (it ∈ selectedItems (forceEdgeEndpoints s))))
        (forceEdgeEndpoints s).lastSelectedItems).foldl resetItemZ (forceEdgeEndpoints s))) e =
      some NetworkEdge.SELECTED_ZVALUE := by
    refine foldl_establish promoteItemZ
      (fun st => zEdge st e = some NetworkEdge.SELECTED_ZVALUE)
      (fun st => nodeView st n = some (nd.edgeList, true) ∧ (zEdge st e).isSome = true)
      (selectedItems (forceEdgeEndpoints s)) (Item.node n) hmemSel
      (fun st b _ h => hQp st b h) ?_ ?_ _ hQ2
    · intro st ⟨h1, h2⟩
      rcases nodeView_some h1 with ⟨d, hfd, hdl, _⟩
      rw [zEdge_promoteItemZ_node st n d e hfd (by rw [hdl]; exact he)]
      cases hz : zEdge st e with
      | none => rw [hz] at h2; simp at h2
      | some z => simp
    · intro st b _ hP
      rcases zEdge_promoteItemZ_disj st b e with hd | hd
      · rw [hd]; exact hP
      · rw [hd, hP]; simp
  exact hfinal

/-- After a full selection-changed pass, an edge that left the selection is
demoted to the default tier, provided no selected (or force-selected) live
node holds it in its incident list. -/
theorem zEdge_onSelectionChanged_dropped (s : St) (e : EdgeId) (ed : EdgeData)
    (hN : (s.heapNodes.map Prod.fst).Nodup)
    (hE : (s.heapEdges.map Prod.fst).Nodup)
    (he : findVal e s.heapEdges = some ed)
    (hsel : ed.selected = false)
    (hlast : Item.edge e ∈ s.lastSelectedItems)
    (hfree : ∀ n nd, (n, nd) ∈ s.heapNodes →
      (nd.selected = true ∨ forcedIn s.heapEdges n = true) → e ∉ nd.edgeList) :
    zEdge (onSelectionChanged s) e = some NetworkEdge.DEFAULT_ZVALUE := by
  have hnotsel : Item.edge e ∉ selectedItems (forceEdgeEndpoints s) := by
    intro hmem
    rcases (mem_selectedItems_force_edge s e).mp hmem with ⟨ed', hmem', hsel'⟩
    have hfe : findVal e s.heapEdges = some ed' := findVal_of_mem_nodup hE hmem'
    rw [he, Option.some.injEq] at hfe
    rw [← hfe] at hsel'
    rw [hsel] at hsel'
    exact Bool.noConfusion hsel'
  have htoReset : Item.edge e ∈
      List.filter (fun it => !(decide (it ∈ selectedItems (forceEdgeEndpoints s))))
        (forceEdgeEndpoints s).lastSelectedItems := by
    apply List.mem_filter.mpr
    refine ⟨?_, by simp [hnotsel]⟩
    rw [lastSelected_force]
    exact hlast
  have hlive1 : (zEdge (forceEdgeEndpoints s) e).isSome = true := by
    rw [zEdge_force]
    unfold zEdge
    rw [Option.isSome_map', he]
    rfl
  -- joint invariant: the edge sits at the default tier and no node's
  -- incident list or selection flag has changed since the forcing phase
  have hQres : ∀ st it,
      ((zEdge st e).isSome = true ∧ (∀ m, nodeView st m = nodeView (forceEdgeEndpoints s) m)) →
      ((zEdge (resetItemZ st it) e).isSome = true ∧
        (∀ m, nodeView (resetItemZ st it) m = nodeView (forceEdgeEndpoints s) m)) := by
    intro st it ⟨h1, h2⟩
    refine ⟨?_, fun m => (nodeView_resetItemZ st it m).trans (h2 m)⟩
    rcases zEdge_resetItemZ_disj st it e with hd | hd
    · rw [hd]; exact h1
    · rw [hd, Option.isSome_map']; exact h1
  have hPres : ∀ st it,
      (zEdge st e = some NetworkEdge.DEFAULT_ZVALUE ∧
        (∀ m, nodeView st m = nodeView (forceEdgeEndpoints s) m)) →
      (zEdge (resetItemZ st it) e = some NetworkEdge.DEFAULT_ZVALUE ∧
        (∀ m, nodeView (resetItemZ st it) m = nodeView (forceEdgeEndpoints s) m)) := by
    intro st it ⟨h1, h2⟩
    refine ⟨?_, fun m => (nodeView_resetItemZ st it m).trans (h2 m)⟩
    rcases zEdge_resetItemZ_disj st it e with hd | hd
    · rw [hd]; exact h1
    · rw [hd, h1]; rfl
  have hP2 : zEdge ((List.filter (fun it => !(decide (it ∈ selectedItems (forceEdgeEndpoints s))))
        (forceEdgeEndpoints s).lastSelectedItems).foldl resetItemZ (forceEdgeEndpoints s)) e =
          some NetworkEdge.DEFAULT_ZVALUE ∧
      (∀ m, nodeView ((List.filter (fun it => !(decide (it ∈ selectedItems (forceEdgeEndpoints s))))
        (forceEdgeEndpoints s).lastSelectedItems).foldl resetItemZ (forceEdgeEndpoints s)) m =
          nodeView (forceEdgeEndpoints s) m) := by
    refine foldl_establish resetItemZ _ (fun st =>
        (zEdge st e).isSome = true ∧ (∀ m, nodeView st m = nodeView (forceEdgeEndpoints s) m))
      _ (Item.edge e) htoReset (fun st b _ h => hQres st b h) ?_ (fun st b _ h => hPres st b h)
      (forceEdgeEndpoints s) ⟨hlive1, fun m => rfl⟩
    intro st ⟨h1, h2⟩
    refine ⟨?_, fun m => (nodeView_resetItemZ st (Item.edge e) m).trans (h2 m)⟩
    rw [zEdge_resetItemZ_edge]
    cases hz : zEdge st e with
    | none => rw [hz] at h1; simp at h1
    | some z => simp
  -- promotion steps never touch this edge: it is not selected, and no
  -- selected node holds it
  have hPpro : ∀ st b, b ∈ selectedItems (forceEdgeEndpoints s) →
      (zEdge st e = some NetworkEdge.DEFAULT_ZVALUE ∧
        (∀ m, nodeView st m = nodeView (forceEdgeEndpoints s) m)) →
      (zEdge (promoteItemZ st b) e = some NetworkEdge.DEFAULT_ZVALUE ∧
        (∀ m, nodeView (promoteItemZ st b) m = nodeView (forceEdgeEndpoints s) m)) := by
    intro st b hbsel ⟨h1, h2⟩
    refine ⟨?_, fun m => (nodeView_promoteItemZ st b m).trans (h2 m)⟩
    rw [zEdge_promoteItemZ_untouched st b e ?_ ?_]
    · exact h1
    · intro k hbk hke
      subst hbk
      subst hke
      exact hnotsel hbsel
    · intro m nm hbm hfm hmem
      subst hbm
      rcases (mem_selectedItems_force_node s m).mp hbsel with ⟨nd0, hmem0, hcase0⟩
      have hfv0 : findVal m s.heapNodes = some nd0 := findVal_of_mem_nodup hN hmem0
      have hv1 : nodeView (forceEdgeEndpoints s) m =
          some (nd0.edgeList, if forcedIn s.heapEdges m then true else nd0.selected) := by
        unfold nodeView
        rw [findVal_force, hfv0]
        by_cases hc : forcedIn s.heapEdges m <;> simp [hc]
      have hvst : nodeView st m = some (nm.edgeList, nm.selected) := by
        unfold nodeView
        rw [hfm]
        rfl
      have hlists : nm.edgeList = nd0.edgeList := by
        have := (h2 m).symm.trans hvst
        rw [hv1, Option.some.injEq] at this
        exact (congrArg Prod.fst this).symm
      rw [hlists] at hmem
      exact hfree m nd0 hmem0 hcase0 hmem
  unfold onSelectionChanged
  dsimp only
  by_cases hemp : (selectedItems (forceEdgeEndpoints s)).isEmpty
  · rw [if_pos hemp]
    exact hP2.1
  · rw [if_neg hemp]
    show zEdge
      { (selectedItems (forceEdgeEndpoints s)).foldl promoteItemZ _ with
          lastSelectedItems := selectedItems (forceEdgeEndpoints s) } e = _
    exact (foldl_inv promoteItemZ _ (selectedItems (forceEdgeEndpoints s)) _
      (fun st b hb h => hPpro st b hb h) hP2).1

/-- After a full selection-changed pass, a node that left the selection and
is not force-selected ends back at the default tier. -/
theorem zNode_onSelectionChanged_dropped (s : St) (n : NodeId) (nd : NodeData)
    (hN : (s.heapNodes.map Prod.fst).Nodup)
    (hn : findVal n s.heapNodes = some nd)
    (hsel : nd.selected = false)
    (hforced : forcedIn s.heapEdges n = false)
    (hlast : Item.node n ∈ s.lastSelectedItems) :
    zNode (onSelectionChanged s) n = some NetworkNode.DEFAULT_ZVALUE := by
  have hnotsel : Item.node n ∉ selectedItems (forceEdgeEndpoints s) := by
    intro hmem
    rcases (mem_selectedItems_force_node s n).mp hmem with ⟨nd', hmem', hcase⟩
    have hfv : findVal n s.heapNodes = some nd' := findVal_of_mem_nodup hN hmem'
    rw [hn, Option.some.injEq] at hfv
    rcases hcase with hc | hc
    · rw [← hfv, hsel] at hc; cases hc
    · rw [hc] at hforced; cases hforced
  have htoReset : Item.node n ∈
      List.filter (fun it => !(decide (it ∈ selectedItems (forceEdgeEndpoints s))))
        (forceEdgeEndpoints s).lastSelectedItems := by
    apply List.mem_filter.mpr
    refine ⟨?_, by simp [hnotsel]⟩
    rw [lastSelected_force]
    exact hlast
  have hlive1 : (zNode (forceEdgeEndpoints s) n).isSome = true := by
    unfold zNode
    rw [findVal_force, hn]
    rfl
  have hQres : ∀ st it, (zNode st n).isSome = true → (zNode (resetItemZ st it) n).isSome = true := by
    intro st it h1
    rcases zNode_resetItemZ_disj st it n with hd | hd
    · rw [hd]; exact h1
    · rw [hd, Option.isSome_map']; exact h1
  have hPres : ∀ st it, zNode st n = some NetworkNode.DEFAULT_ZVALUE →
      zNode (resetItemZ st it) n = some NetworkNode.DEFAULT_ZVALUE := by
    intro st it h1
    rcases zNode_resetItemZ_disj st it n with hd | hd
    · rw [hd]; exact h1
    · rw [hd, h1]; rfl
  have hP2 : zNode ((List.filter (fun it => !(decide (it ∈ selectedItems (forceEdgeEndpoints s))))
        (forceEdgeEndpoints s).lastSelectedItems).foldl resetItemZ (forceEdgeEndpoints s)) n =
          some NetworkNode.DEFAULT_ZVALUE := by
    refine foldl_establish resetItemZ _ (fun st => (zNode st n).isSome = true)
      _ (Item.node n) htoReset (fun st b _ h => hQres st b h) ?_ (fun st b _ h => hPres st b h)
      (forceEdgeEndpoints s) hlive1
    intro st h1
    cases hz : findVal n st.heapNodes with
    | none => unfold zNode at h1; rw [hz] at h1; cases h1
    | some d =>
        rw [zNode_resetItemZ_self st n d hz]
        unfold zNode
        rw [hz]
        rfl
  unfold onSelectionChanged
  dsimp only
  by_cases hemp : (selectedItems (forceEdgeEndpoints s)).isEmpty
  · rw [if_pos hemp]
    exact hP2
  · rw [if_neg hemp]
    show zNode
      { (selectedItems (forceEdgeEndpoints s)).foldl promoteItemZ _ with
          lastSelectedItems := selectedItems (forceEdgeEndpoints s) } n = _
    refine foldl_inv promoteItemZ (fun st => zNode st n = some NetworkNode.DEFAULT_ZVALUE)
      (selectedItems (forceEdgeEndpoints s)) _ ?_ hP2
    intro st b hb h1
    rw [zNode_promoteItemZ_untouched st b n ?_]
    · exact h1
    · intro k hbk hkn
      subst hbk
      subst hkn
      exact hnotsel hb

/-! ## Correctness of `getNodeAt` -/

theorem clamp_sq_le (lo hi v t : ℚ) (h1 : lo ≤ t) (h2 : t ≤ hi) :
    (clampQ lo v hi - v) ^ 2 ≤ (t - v) ^ 2 := by
  unfold clampQ
  rcases le_total v lo with hvlo | hlov
  · have hvhi : v ≤ hi := le_trans hvlo (le_trans h1 h2)
    rw [min_eq_left hvhi, max_eq_left hvlo]
    nlinarith [mul_nonneg (sub_nonneg.mpr h1) (by linarith : (0:ℚ) ≤ t + lo - 2 * v)]
  · rcases le_total hi v with hhiv | hvhi
    · have hlohi : lo ≤ hi := le_trans h1 h2
      rw [min_eq_right hhiv, max_eq_right hlohi]
      nlinarith [mul_nonneg (sub_nonneg.mpr h2) (by linarith : (0:ℚ) ≤ 2 * v - t - hi)]
    · rw [min_eq_left hvhi, max_eq_right hlov]
      nlinarith [sq_nonneg (t - v)]

/-- Exact containment in a node's disc implies that the disc meets the
10-unit pick square around the query point (the query point itself lies in
the square). -/
theorem nodeContains_intersects (d : NodeData) (px py : ℚ)
    (h : nodeContains d px py = true) : nodeIntersectsPick d px py 10 = true := by
  unfold nodeContains at h
  rw [decide_eq_true_eq] at h
  unfold nodeIntersectsPick
  rw [decide_eq_true_eq]
  have hx := clamp_sq_le (px - 10) (px + 10) d.x px (by linarith) (by linarith)
  have hy := clamp_sq_le (py - 10) (py + 10) d.y py (by linarith) (by linarith)
  calc (clampQ (px - 10) d.x (px + 10) - d.x) ^ 2 + (clampQ (py - 10) d.y (py + 10) - d.y) ^ 2
      ≤ (px - d.x) ^ 2 + (py - d.y) ^ 2 := add_le_add hx hy
    _ ≤ 625 := h

/-- In a z-descending list, the first hit of `find?` has the maximal z-value
among all hits. -/
theorem find?_sorted_le {c : NodeId × NodeData → Bool} :
    ∀ {l : List (NodeId × NodeData)}, List.Sorted zGE l →
      ∀ {r}, l.find? c = some r → ∀ m ∈ l, c m = true → m.2.z ≤ r.2.z := by
  intro l
  induction l with
  | nil => intro _ r h; simp at h
  | cons p t ih =>
      intro hs r hf m hm hc
      rcases List.sorted_cons.mp hs with ⟨hp, ht⟩
      by_cases hcp : c p = true
      · rw [List.find?_cons_of_pos _ hcp, Option.some.injEq] at hf
        rcases List.mem_cons.mp hm with hmp | hmt
        · rw [hmp, hf]
        · rw [← hf]
          exact hp m hmt
      · rw [List.find?_cons_of_neg _ (by simpa using hcp)] at hf
        rcases List.mem_cons.mp hm with hmp | hmt
        · rw [hmp] at hc; exact absurd hc hcp
        · exact ih ht hf m hmt hc

theorem getNodeAt_some (s : St) (px py : ℚ) (n : NodeId)
    (h : getNodeAt s px py = some n) :
    ∃ d, (n, d) ∈ s.heapNodes ∧ nodeContains d px py = true ∧
      ∀ q ∈ s.heapNodes, nodeContains q.2 px py = true → q.2.z ≤ d.z := by
  unfold getNodeAt at h
  dsimp only at h
  cases hf : (List.insertionSort zGE
      (s.heapNodes.filter fun p => nodeIntersectsPick p.2 px py 10)).find?
        (fun p => nodeContains p.2 px py) with
  | none => rw [hf] at h; simp at h
  | some r =>
      rw [hf] at h
      simp only [Option.map_some', Option.some.injEq] at h
      have hrmem : r ∈ List.insertionSort zGE
          (s.heapNodes.filter fun p => nodeIntersectsPick p.2 px py 10) :=
        List.mem_of_find?_eq_some hf
      have hrfil : r ∈ s.heapNodes.filter fun p => nodeIntersectsPick p.2 px py 10 :=
        (List.perm_insertionSort zGE _).mem_iff.mp hrmem
      have hrheap : r ∈ s.heapNodes := List.mem_of_mem_filter hrfil
      have hrc : nodeContains r.2 px py = true := by
        have := List.find?_some hf
        simpa using this
      refine ⟨r.2, ?_, hrc, ?_⟩
      · rw [← h]
        cases r
        exact hrheap
      · intro q hq hqc
        have hqf : q ∈ s.heapNodes.filter fun p => nodeIntersectsPick p.2 px py 10 :=
          List.mem_filter.mpr ⟨hq, nodeContains_intersects _ _ _ hqc⟩
        have hqs : q ∈ List.insertionSort zGE
            (s.heapNodes.filter fun p => nodeIntersectsPick p.2 px py 10) :=
          (List.perm_insertionSort zGE _).mem_iff.mpr hqf
        exact find?_sorted_le (List.sorted_insertionSort zGE _) hf q hqs hqc

theorem getNodeAt_none (s : St) (px py : ℚ)
    (h : getNodeAt s px py = none) :
    ∀ q ∈ s.heapNodes, nodeContains q.2 px py = false := by
  unfold getNodeAt at h
  dsimp only at h
  cases hf : (List.insertionSort zGE
      (s.heapNodes.filter fun p => nodeIntersectsPick p.2 px py 10)).find?
        (fun p => nodeContains p.2 px py) with
  | some r => rw [hf] at h; simp at h
  | none =>
      intro q hq
      by_contra hqc
      rw [Bool.not_eq_false] at hqc
      have hqf : q ∈ s.heapNodes.filter fun p => nodeIntersectsPick p.2 px py 10 :=
        List.mem_filter.mpr ⟨hq, nodeContains_intersects _ _ _ hqc⟩
      have hqs : q ∈ List.insertionSort zGE
          (s.heapNodes.filter fun p => nodeIntersectsPick p.2 px py 10) :=
        (List.perm_insertionSort zGE _).mem_iff.mpr hqf
      exact List.find?_eq_none.mp hf q hqs hqc

/-! ## Path lemmas for the interactive click and menu actions -/

theorem interactiveLeftClick_miss (s : St) (px py : ℚ) (n : NodeId)
    (h1 : s.isCreatingEdge = true)
    (h2 : s.edgeSourceNode = some n)
    (h3 : getNodeAt s px py = none) :
    (interactiveLeftClick s px py).isCreatingEdge = true ∧
    (interactiveLeftClick s px py).edgeSourceNode = some n ∧
    (interactiveLeftClick s px py).tempEdgeLine = s.tempEdgeLine ∧
    (interactiveLeftClick s px py).edges = s.edges ∧
    (interactiveLeftClick s px py).nodes = s.nodes := by
  have hstep : interactiveLeftClick s px py = onSelectionChanged s := by
    unfold interactiveLeftClick
    dsimp only
    rw [if_pos h1, h3]
    rw [if_neg (by rw [h2]; simp)]
  rw [hstep]
  obtain ⟨hnodes, hedges, hsrc, hflag, htemp, _, _, _⟩ := sameCore_onSelectionChanged s
  exact ⟨hflag.trans h1, hsrc.trans h2, htemp, hedges, hnodes⟩

theorem interactiveLeftClick_selfLoop (s : St) (px py : ℚ) (n : NodeId)
    (h1 : s.isCreatingEdge = true)
    (h2 : s.edgeSourceNode = some n)
    (h3 : getNodeAt s px py = some n) :
    (interactiveLeftClick s px py).nodes = s.nodes ∧
    (interactiveLeftClick s px py).edges = s.edges ∧
    (interactiveLeftClick s px py).nextEdgeId = s.nextEdgeId ∧
    (interactiveLeftClick s px py).nextNodeId = s.nextNodeId ∧
    (interactiveLeftClick s px py).isCreatingEdge = false ∧
    (interactiveLeftClick s px py).tempEdgeLine = false ∧
    (interactiveLeftClick s px py).edgeSourceNode = none ∧
    (interactiveLeftClick s px py).msgs =
      s.msgs ++ ["Cannot create an edge from a node to itself."] := by
  have hstep : interactiveLeftClick s px py =
      onSelectionChanged (cleanupEdgeCreation
        { s with msgs := s.msgs ++ ["Cannot create an edge from a node to itself."] }) := by
    unfold interactiveLeftClick
    dsimp only
    rw [if_pos h1, h3]
    dsimp only
    rw [if_neg (by rw [h2]; simp)]
  rw [hstep]
  obtain ⟨hnodes, hedges, hsrc, hflag, htemp, hnid, heid, hmsgs⟩ :=
    sameCore_onSelectionChanged (cleanupEdgeCreation
      { s with msgs := s.msgs ++ ["Cannot create an edge from a node to itself."] })
  refine ⟨hnodes.trans rfl, hedges.trans rfl, heid.trans rfl, hnid.trans rfl,
    hflag.trans rfl, htemp.trans rfl, hsrc.trans rfl, hmsgs.trans rfl⟩

theorem AddEdge_selfLoop (s : St) (n : NodeId) (nd : NodeData) (directed : Bool) (lbl : String)
    (hn : findVal n s.heapNodes = some nd)
    (hfresh : findVal s.nextEdgeId s.heapEdges = none) :
    (AddEdge s n n directed lbl).edges = s.edges ++ [s.nextEdgeId] ∧
    findVal n (AddEdge s n n directed lbl).heapNodes =
      some { nd with edgeList := (nd.edgeList ++ [s.nextEdgeId]) ++ [s.nextEdgeId] } ∧
    findVal s.nextEdgeId (AddEdge s n n directed lbl).heapEdges =
      some { src := n, dst := n, directed := directed, lbl := lbl,
             z := NetworkEdge.DEFAULT_ZVALUE, selected := false } := by
  have hcond : ¬ ((findVal n s.heapNodes).isNone = true ∨ (findVal n s.heapNodes).isNone = true) := by
    rw [hn]
    simp
  unfold AddEdge
  dsimp only
  rw [if_neg hcond]
  refine ⟨rfl, ?_, ?_⟩
  · show findVal n (nodeAddEdge (nodeAddEdge s.heapNodes n s.nextEdgeId) n s.nextEdgeId) = _
    unfold nodeAddEdge
    rw [findVal_updVal, if_pos rfl, findVal_updVal, if_pos rfl, hn]
    rfl
  · show findVal s.nextEdgeId (s.heapEdges ++ [(s.nextEdgeId, _)]) = _
    rw [findVal_append, hfresh]
    simp [findVal]

theorem onAddEdge_noSource (s : St)
    (h : s.edgeSourceNode = none) (hflag : s.isCreatingEdge = false) :
    (onAddEdge s).isCreatingEdge = false ∧
    (onAddEdge s).edgeSourceNode = none ∧
    (onAddEdge s).nodes = s.nodes ∧
    (onAddEdge s).edges = s.edges ∧
    (onAddEdge s).heapNodes = s.heapNodes ∧
    (onAddEdge s).heapEdges = s.heapEdges ∧
    (onAddEdge s).tempEdgeLine = s.tempEdgeLine ∧
    (onAddEdge s).msgs = s.msgs ++
      ["Please right-click on a source node first, then select 'Add edge from this Node'"] := by
  unfold onAddEdge
  rw [h]
  dsimp only
  exact ⟨hflag, rfl, rfl, rfl, rfl, rfl, rfl, rfl⟩

/-! ## Concrete scenario states used by the claim theorems -/

/-- Two nodes `A(0,0)` and `B(200,0)` seeded programmatically. -/
def twoNodesAB : St := (AddNodeAt (AddNodeAt St.empty 0 0 "A").1 200 0 "B").1

/-- The specification's own referential-integrity scenario: `A(-200,-100)`,
`B(0,-100)`. -/
def specAB : St := (AddNodeAt (AddNodeAt St.empty (-200) (-100) "A").1 0 (-100) "B").1

/-- ... plus the undirected edge `A→B` labelled "1" added through
`NetSim::AddEdge` (registered in both incident lists). -/
def specABedge : St := AddEdge specAB 0 1 false "1"

/-- ... and then node `A` deleted through the context-menu delete lambda. -/
def specDeleted : St := ctxDeleteNode specABedge 0

/-- Edge-creation from `A` armed via the context menu, then a left click on
`B(200,0)`: the interactive edge-creation path runs. -/
def interactiveEdgeState : St := interactiveLeftClick (ctxAddEdgeFrom twoNodesAB 0) 200 0

/-- ... then `A` is selected and `onDeleteSelected` runs. -/
def deleteSelectedState : St :=
  onDeleteSelected (sceneSetSelected interactiveEdgeState (Item.node 0) true)

/-- Edge-creation from `A` armed, then `A` deleted via the context menu. -/
def c4del : St := ctxDeleteNode (ctxAddEdgeFrom twoNodesAB 0) 0

/-- ... and a subsequent left click on `B`. -/
def c4click : St := interactiveLeftClick c4del 200 0

/-- `A`, `B` with a registered edge; node `A` (only) becomes selected. -/
def c5pre : St := sceneSetSelected (AddEdge twoNodesAB 0 1 false "w") (Item.node 0) true

def c5post : St := onSelectionChanged c5pre

/-- Node `A`'s object state in `c5pre`. -/
def c5nd : NodeData :=
  { x := 0, y := 0, lbl := "A", edgeList := [0], z := NetworkNode.DEFAULT_ZVALUE, selected := true }

/-- `A`, `B` with a registered edge; the edge is selected and the handler
runs (forcing `A` and `B` selected and promoting all three). -/
def c6first : St :=
  onSelectionChanged (sceneSetSelected (AddEdge twoNodesAB 0 1 false "w") (Item.edge 0) true)

/-- ... then the edge alone is deselected (its endpoints stay selected). -/
def c6dropped : St := sceneSetSelected c6first (Item.edge 0) false

def c6post : St := onSelectionChanged c6dropped

/-- A single node `A(0,0)`. -/
def c8state : St := (AddNodeAt St.empty 0 0 "A").1

/-- Node `A`'s object state in `c8state`. -/
def c8nd : NodeData :=
  { x := 0, y := 0, lbl := "A", edgeList := [], z := NetworkNode.DEFAULT_ZVALUE, selected := false }

/-- A single node with edge creation armed from it. -/
def c10state : St := ctxAddEdgeFrom (AddNodeAt St.empty 0 0 "A").1 0

/-- One node `A(0,0)`; used for the `AddEdge` self-loop counterexample. -/
def c2pre : St := (AddNodeAt St.empty 0 0 "A").1

def c2post : St := AddEdge c2pre 0 0 false "x"

/-- Node `A`'s object state in `c2pre`. -/
def c2nd : NodeData :=
  { x := 0, y := 0, lbl := "A", edgeList := [], z := NetworkNode.DEFAULT_ZVALUE, selected := false }

/-- Edge-creation armed on `twoNodesAB` from node `A`. -/
def c2wA : St := ctxAddEdgeFrom twoNodesAB 0

/-! ## Claim theorems -/

/-- C1: the claim states that after any node deletion no edge in the store
references the node and no surviving incident list holds a deleted edge.
The code violates it on both deletion paths.  Context-menu path (the spec's
own scenario A(-200,-100), B(0,-100), edge A→B, delete A): the edge is
removed from `edges` and destroyed, but `B`'s incident list still holds the
destroyed edge 0, which referenced A.  `onDeleteSelected` path (edge made
through the interactive click path, which never registers it in any
incident list): the node's own edge list is empty, so nothing is removed
and the still-live edge 0 with source A stays in `edges` after A is
destroyed. -/
theorem C1_node_deletion_leaves_dangling_edge_references :
    (findVal 0 specABedge.heapEdges).map (fun d => (d.src, d.dst)) = some (0, 1) ∧
    specDeleted.edges = [] ∧
    findVal 0 specDeleted.heapNodes = none ∧
    (findVal 1 specDeleted.heapNodes).map NodeData.edgeList = some [0] ∧
    findVal 0 specDeleted.heapEdges = none ∧
    deleteSelectedState.edges = [0] ∧
    (findVal 0 deleteSelectedState.heapEdges).map (fun d => (d.src, d.dst)) = some (0, 1) ∧
    findVal 0 deleteSelectedState.heapNodes = none := by
  norm_num [deleteSelectedState, interactiveEdgeState, twoNodesAB, specDeleted, specABedge,
    specAB, interactiveLeftClick, ctxAddEdgeFrom, AddNodeAt, AddEdge, ctxDeleteNode, St.empty,
    getNodeAt, nodeIntersectsPick, nodeContains, clampQ, List.insertionSort, List.orderedInsert,
    List.filter, List.find?, cleanupEdgeCreation, onSelectionChanged, forceEdgeEndpoints,
    forceStep, selectedItems, resetItemZ, promoteItemZ, setEdgeZ, setNodeZ, setNodeSelectedTrue,
    updVal, findVal, zGE, sceneSetSelected, onDeleteSelected, deleteSelectedStep, delEdgesLoop,
    delEdgeStep, eraseKey, nodeDeleteEdge, nodeAddEdge]

/-- C2 (counterexample): `AddEdge(A, A, …)` performs no self-loop check.
On a store with the single node `A` it appends the self-loop edge to the
edge collection and registers it twice in `A`'s incident list, refuting the
claim that every edge-adding path rejects self-loops and leaves the
collections unchanged. -/
theorem C2_counterexample_AddEdge_self_loop :
    c2pre.edges = [] ∧ c2post.edges = [0] ∧
    (findVal 0 c2post.heapEdges).map (fun d => (d.src, d.dst)) = some (0, 0) ∧
    (findVal 0 c2post.heapNodes).map NodeData.edgeList = some [0, 0] := by decide

/-- What actually holds for self-loop attempts: the interactive click path
rejects with a warning and unchanged collections, while the programmatic
`AddEdge` path appends the self-loop and double-registers it. -/
def C2SelfLoopSpec (s1 : St) (px py : ℚ) (s2 : St) (n2 : NodeId) (nd : NodeData)
    (directed : Bool) (lbl : String) : Prop :=
  ((interactiveLeftClick s1 px py).nodes = s1.nodes ∧
   (interactiveLeftClick s1 px py).edges = s1.edges ∧
   (interactiveLeftClick s1 px py).nextEdgeId = s1.nextEdgeId ∧
   (interactiveLeftClick s1 px py).isCreatingEdge = false ∧
   (interactiveLeftClick s1 px py).msgs =
     s1.msgs ++ ["Cannot create an edge from a node to itself."]) ∧
  ((AddEdge s2 n2 n2 directed lbl).edges = s2.edges ++ [s2.nextEdgeId] ∧
   findVal n2 (AddEdge s2 n2 n2 directed lbl).heapNodes =
     some { nd with edgeList := (nd.edgeList ++ [s2.nextEdgeId]) ++ [s2.nextEdgeId] } ∧
   findVal s2.nextEdgeId (AddEdge s2 n2 n2 directed lbl).heapEdges =
     some { src := n2, dst := n2, directed := directed, lbl := lbl,
            z := NetworkEdge.DEFAULT_ZVALUE, selected := false })

/-- C2 (amended): a self-loop attempt on the interactive click path (a
click that hits the stored source node itself) is rejected with a warning
message and leaves the node and edge collections unchanged; the
programmatic `AddEdge` path performs no self-loop check and appends the
self-loop edge, registering it twice in the node's incident list. -/
theorem C2_amended_self_loop_policy
    (s1 : St) (px py : ℚ) (n1 : NodeId)
    (h1 : s1.isCreatingEdge = true) (h2 : s1.edgeSourceNode = some n1)
    (h3 : getNodeAt s1 px py = some n1)
    (s2 : St) (n2 : NodeId) (nd : NodeData) (directed : Bool) (lbl : String)
    (hn : findVal n2 s2.heapNodes = some nd)
    (hfresh : findVal s2.nextEdgeId s2.heapEdges = none) :
    C2SelfLoopSpec s1 px py s2 n2 nd directed lbl := by
  obtain ⟨a1, a2, a3, _, a5, _, _, a8⟩ := interactiveLeftClick_selfLoop s1 px py n1 h1 h2 h3
  exact ⟨⟨a1, a2, a3, a5, a8⟩, AddEdge_selfLoop s2 n2 nd directed lbl hn hfresh⟩

theorem C2_amended_self_loop_policy_witness :
    c2wA.isCreatingEdge = true ∧ c2wA.edgeSourceNode = some 0 ∧
    getNodeAt c2wA 0 0 = some 0 ∧
    findVal 0 c2pre.heapNodes = some c2nd ∧
    findVal c2pre.nextEdgeId c2pre.heapEdges = none ∧
    C2SelfLoopSpec c2wA 0 0 c2pre 0 c2nd false "x" :=
  ⟨rfl, rfl,
   by norm_num [c2wA, twoNodesAB, AddNodeAt, St.empty, ctxAddEdgeFrom, getNodeAt,
     nodeIntersectsPick, nodeContains, clampQ, List.insertionSort, List.orderedInsert,
     List.filter, List.find?, updVal, findVal, zGE],
   by decide, by decide,
   C2_amended_self_loop_policy c2wA 0 0 0 rfl rfl
     (by norm_num [c2wA, twoNodesAB, AddNodeAt, St.empty, ctxAddEdgeFrom, getNodeAt,
       nodeIntersectsPick, nodeContains, clampQ, List.insertionSort, List.orderedInsert,
       List.filter, List.find?, updVal, findVal, zGE])
     c2pre 0 c2nd false "x" (by decide) (by decide)⟩

/-- C3: the claim states that every successful edge addition registers the
edge in both endpoints' incident lists.  On the interactive click path the
edge is appended to the edge collection but NEITHER endpoint's incident
list is touched, breaking the incident-list invariant (and, downstream,
`onDeleteSelected`, which trusts the incident list when deleting a node). -/
theorem C3_interactive_edge_skips_incident_registration :
    interactiveEdgeState.edges = [0] ∧
    (findVal 0 interactiveEdgeState.heapEdges).map (fun d => (d.src, d.dst)) = some (0, 1) ∧
    (findVal 0 interactiveEdgeState.heapNodes).map NodeData.edgeList = some [] ∧
    (findVal 1 interactiveEdgeState.heapNodes).map NodeData.edgeList = some [] := by
  norm_num [interactiveEdgeState, twoNodesAB, interactiveLeftClick, ctxAddEdgeFrom, AddNodeAt,
    St.empty, getNodeAt, nodeIntersectsPick, nodeContains, clampQ, List.insertionSort,
    List.orderedInsert, List.filter, List.find?, cleanupEdgeCreation, onSelectionChanged,
    forceEdgeEndpoints, forceStep, selectedItems, resetItemZ, promoteItemZ, setEdgeZ, setNodeZ,
    setNodeSelectedTrue, updVal, findVal, zGE]

/-- C4: the claim states that deleting the edge-creation source node forces
the controller back to Idle.  No deletion path touches the edge-creation
state: after arming edge creation from `A` and deleting `A` through the
context menu, the creating-edge flag is still raised, the stored source
still references the destroyed node and the preview line still exists — and
a subsequent click on `B` creates an edge whose source is the deleted
node. -/
theorem C4_deletion_keeps_edge_creation_mode :
    c4del.isCreatingEdge = true ∧
    c4del.edgeSourceNode = some 0 ∧
    findVal 0 c4del.heapNodes = none ∧
    c4del.tempEdgeLine = true ∧
    c4click.edges = [0] ∧
    (findVal 0 c4click.heapEdges).map EdgeData.src = some 0 ∧
    findVal 0 c4click.heapNodes = none := by
  norm_num [c4click, c4del, twoNodesAB, interactiveLeftClick, ctxAddEdgeFrom, ctxDeleteNode,
    AddNodeAt, St.empty, getNodeAt, nodeIntersectsPick, nodeContains, clampQ,
    List.insertionSort, List.orderedInsert, List.filter, List.find?, cleanupEdgeCreation,
    onSelectionChanged, forceEdgeEndpoints, forceStep, selectedItems, resetItemZ, promoteItemZ,
    setEdgeZ, setNodeZ, setNodeSelectedTrue, updVal, findVal, zGE, eraseKey]

/-- C5 (counterexample): selecting only node `A` (its registered incident
edge 0 stays unselected) still raises edge 0 to the highlighted z tier,
refuting the claim that an edge's z-order is raised only while the edge
itself is in the selection set. -/
theorem C5_counterexample_unselected_edge_promoted :
    zEdge c5post 0 = some NetworkEdge.SELECTED_ZVALUE ∧
    edgeSel c5post 0 = some false ∧
    Item.edge 0 ∉ selectedItems c5post ∧
    NetworkEdge.SELECTED_ZVALUE ≠ NetworkEdge.DEFAULT_ZVALUE := by decide

/-- C5 (amended): the promotion loop raises an edge to the highlighted tier
whenever a selected live node holds it in its incident-edge list, whether
or not the edge itself is selected — an edge's z-order is NOT independent
of its endpoints' selection. -/
theorem C5_amended_edge_promoted_via_selected_endpoint
    (s : St) (n : NodeId) (nd : NodeData) (e : EdgeId)
    (hn : findVal n s.heapNodes = some nd)
    (hsel : nd.selected = true)
    (he : e ∈ nd.edgeList)
    (hlive : (findVal e s.heapEdges).isSome = true) :
    zEdge (onSelectionChanged s) e = some NetworkEdge.SELECTED_ZVALUE :=
  zEdge_onSelectionChanged_promoted s n nd e hn (Or.inl hsel) he hlive

theorem C5_amended_edge_promoted_via_selected_endpoint_witness :
    findVal 0 c5pre.heapNodes = some c5nd ∧
    c5nd.selected = true ∧
    0 ∈ c5nd.edgeList ∧
    (findVal 0 c5pre.heapEdges).isSome = true ∧
    zEdge (onSelectionChanged c5pre) 0 = some NetworkEdge.SELECTED_ZVALUE :=
  ⟨by decide, by decide, by decide, by decide,
   C5_amended_edge_promoted_via_selected_endpoint c5pre 0 c5nd 0
     (by decide) (by decide) (by decide) (by decide)⟩

/-- C6 (counterexample): select edge 0 (the handler forces `A` and `B`
selected and records all three), then deselect just the edge.  The reset
loop does demote edge 0, but the promotion loop immediately re-raises it to
the highlighted tier because the still-selected `A` holds it in its
incident list — the edge left the selection set yet does not end at its
default tier. -/
theorem C6_counterexample_dropped_edge_repromoted :
    Item.edge 0 ∈ c6dropped.lastSelectedItems ∧
    edgeSel c6dropped 0 = some false ∧
    zEdge c6post 0 = some NetworkEdge.SELECTED_ZVALUE ∧
    zEdge c6post 0 ≠ some NetworkEdge.DEFAULT_ZVALUE ∧
    Item.edge 0 ∉ selectedItems c6post := by decide

/-- What actually holds when items leave the selection: an edge that left
is restored to the default tier unless some selected (or force-selected)
node holds it in its incident list, in which case it is re-promoted to the
highlighted tier; a node that left and is not force-selected is always
restored to the default tier. -/
def C6RestoreSpec (s : St) : Prop :=
  (∀ e ed, findVal e s.heapEdges = some ed → ed.selected = false →
      Item.edge e ∈ s.lastSelectedItems →
      (∀ n nd, (n, nd) ∈ s.heapNodes →
          (nd.selected = true ∨ forcedIn s.heapEdges n = true) → e ∉ nd.edgeList) →
      zEdge (onSelectionChanged s) e = some NetworkEdge.DEFAULT_ZVALUE) ∧
  (∀ e n nd, findVal n s.heapNodes = some nd →
      (nd.selected = true ∨ forcedIn s.heapEdges n = true) → e ∈ nd.edgeList →
      (findVal e s.heapEdges).isSome = true →
      zEdge (onSelectionChanged s) e = some NetworkEdge.SELECTED_ZVALUE) ∧
  (∀ n nd, findVal n s.heapNodes = some nd → nd.selected = false →
      forcedIn s.heapEdges n = false → Item.node n ∈ s.lastSelectedItems →
      zNode (onSelectionChanged s) n = some NetworkNode.DEFAULT_ZVALUE)

/-- C6 (amended): every item that leaves the selection set is demoted to
its default z tier, EXCEPT an edge held in the incident-edge list of a node
that remains selected (or is force-selected as an endpoint of a selected
edge), which the same handler re-promotes to the highlighted tier. -/
theorem C6_amended_deselection_z_restore (s : St)
    (hN : (s.heapNodes.map Prod.fst).Nodup)
    (hE : (s.heapEdges.map Prod.fst).Nodup) :
    C6RestoreSpec s := by
  refine ⟨?_, ?_, ?_⟩
  · intro e ed he hsel hlast hfree
    exact zEdge_onSelectionChanged_dropped s e ed hN hE he hsel hlast hfree
  · intro e n nd hn hsel he hlive
    exact zEdge_onSelectionChanged_promoted s n nd e hn hsel he hlive
  · intro n nd hn hsel hforced hlast
    exact zNode_onSelectionChanged_dropped s n nd hN hn hsel hforced hlast

theorem C6_amended_deselection_z_restore_witness :
    (c6dropped.heapNodes.map Prod.fst).Nodup ∧
    (c6dropped.heapEdges.map Prod.fst).Nodup ∧
    C6RestoreSpec c6dropped :=
  ⟨by decide, by decide,
   C6_amended_deselection_z_restore c6dropped (by decide) (by decide)⟩

/-- Per-step zoom behaviour of `NetSim::handleZoom` together with the
anchored-under-mouse transform: forward wheel steps multiply the scale by
23/20 (= 1.15), backward steps by 20/23, two forward steps from unit scale
land on 529/400 (= 1.3225), and the scene point under the pointer keeps its
screen position across a step. -/
def C7ZoomSpec (T : ViewTransform) (dx dy : Int) (mx my : ℚ) : Prop :=
  (0 < dy → (handleZoom T dx dy mx my).scale = T.scale * (23 / 20)) ∧
  (dy < 0 → (handleZoom T dx dy mx my).scale = T.scale * (20 / 23)) ∧
  (¬(dx = 0 ∧ dy = 0) →
    toScreenX (handleZoom T dx dy mx my) (toSceneX T mx) = mx ∧
    toScreenY (handleZoom T dx dy mx my) (toSceneY T my) = my ∧
    toScreenX T (toSceneX T mx) = mx ∧
    toScreenY T (toSceneY T my) = my) ∧
  (T.scale = 1 → 0 < dy →
    (handleZoom (handleZoom T dx dy mx my) dx dy mx my).scale = 529 / 400)

/-- C7: each discrete wheel step multiplies the viewport scale by exactly
1.15 (forward) or 1/1.15 (backward); two forward steps from scale 1 give
exactly 1.3225; and the zoom is anchored under the pointer, so the scene
point under the cursor maps to the same screen position before and after
the step.  Real arithmetic is modelled exactly over ℚ. -/
theorem C7_wheel_zoom_factor_and_anchor (T : ViewTransform) (dx dy : Int) (mx my : ℚ)
    (hpos : 0 < T.scale) : C7ZoomSpec T dx dy mx my := by
  have hne : T.scale ≠ 0 := ne_of_gt hpos
  refine ⟨?_, ?_, ?_, ?_⟩
  · intro hdy
    have hnn : ¬(dx = 0 ∧ dy = 0) := fun h => by omega
    unfold handleZoom scaleAnchored
    dsimp only
    rw [if_pos hnn, if_pos hdy]
    norm_num
  · intro hdy
    have hnn : ¬(dx = 0 ∧ dy = 0) := fun h => by omega
    have hng : ¬(0 < dy) := by omega
    unfold handleZoom scaleAnchored
    dsimp only
    rw [if_pos hnn, if_neg hng]
    norm_num
  · intro hnn
    unfold handleZoom scaleAnchored toScreenX toScreenY toSceneX toSceneY
    dsimp only
    refine ⟨by ring, by ring, ?_, ?_⟩
    · field_simp
    · field_simp
  · intro hone hdy
    have hnn : ¬(dx = 0 ∧ dy = 0) := fun h => by omega
    unfold handleZoom scaleAnchored
    dsimp only
    rw [if_pos hnn, if_pos hdy, hone]
    norm_num

theorem C7_wheel_zoom_factor_and_anchor_witness :
    0 < (ViewTransform.mk 1 0 0).scale ∧ C7ZoomSpec (ViewTransform.mk 1 0 0) 0 120 5 7 :=
  ⟨by norm_num, C7_wheel_zoom_factor_and_anchor (ViewTransform.mk 1 0 0) 0 120 5 7 (by norm_num)⟩

/-- C8 (counterexample): the node at the origin (disc of radius 25) lies
within the 10-unit pick tolerance of the query point (31,0) — the pick
square meets its shape — yet `getNodeAt` returns nothing, because the final
test is exact shape containment, refuting the claim that containment
within the tolerance suffices. -/
theorem C8_counterexample_tolerance_not_used :
    findVal 0 c8state.heapNodes = some c8nd ∧
    nodeIntersectsPick c8nd 31 0 10 = true ∧
    nodeContains c8nd 31 0 = false ∧
    getNodeAt c8state 31 0 = none := by
  norm_num [c8state, c8nd, AddNodeAt, St.empty, getNodeAt, nodeIntersectsPick, nodeContains,
    clampQ, List.insertionSort, List.orderedInsert, List.filter, List.find?, updVal, findVal,
    zGE, NetworkNode.DEFAULT_ZVALUE]

/-- What `getNodeAt` actually returns: the maximal-z node whose shape
exactly contains the query point (the pick tolerance only gathers
candidates), nothing when no node exactly contains it; only nodes are ever
returned (the query ranges over the node heap alone). -/
def C8HitSpec (s : St) (px py : ℚ) : Prop :=
  match getNodeAt s px py with
  | some n => ∃ d, (n, d) ∈ s.heapNodes ∧ nodeContains d px py = true ∧
      ∀ q ∈ s.heapNodes, nodeContains q.2 px py = true → q.2.z ≤ d.z
  | none => ∀ q ∈ s.heapNodes, nodeContains q.2 px py = false

/-- C8 (amended): for every query point, `getNodeAt` returns a node with
the highest z-value among the nodes whose shape exactly contains the point,
and returns nothing when no node exactly contains it — a node merely within
the pick tolerance is not returned; edges are never returned. -/
theorem C8_amended_getNodeAt_exact_containment (s : St) (px py : ℚ) :
    C8HitSpec s px py := by
  unfold C8HitSpec
  cases h : getNodeAt s px py with
  | some n => exact getNodeAt_some s px py n h
  | none => exact getNodeAt_none s px py h

/-- The effect of `onAddEdge` with no stored source: an informational
message only, everything else unchanged. -/
def C9NoSourceSpec (s : St) : Prop :=
  (onAddEdge s).isCreatingEdge = false ∧
  (onAddEdge s).edgeSourceNode = none ∧
  (onAddEdge s).nodes = s.nodes ∧
  (onAddEdge s).edges = s.edges ∧
  (onAddEdge s).heapNodes = s.heapNodes ∧
  (onAddEdge s).heapEdges = s.heapEdges ∧
  (onAddEdge s).tempEdgeLine = s.tempEdgeLine ∧
  (onAddEdge s).msgs = s.msgs ++
    ["Please right-click on a source node first, then select 'Add edge from this Node'"]

/-- C9: invoking the add-edge menu action with no stored edge-creation
source shows an informational message and changes nothing else: the
creating-edge flag stays false and the node and edge collections (and both
heaps) are untouched. -/
theorem C9_add_edge_menu_without_source_is_noop (s : St)
    (h : s.edgeSourceNode = none) (hflag : s.isCreatingEdge = false) :
    C9NoSourceSpec s := by
  unfold C9NoSourceSpec onAddEdge
  rw [h]
  dsimp only
  exact ⟨hflag, rfl, rfl, rfl, rfl, rfl, rfl, rfl⟩

theorem C9_add_edge_menu_without_source_is_noop_witness :
    St.empty.edgeSourceNode = none ∧ St.empty.isCreatingEdge = false ∧
    C9NoSourceSpec St.empty :=
  ⟨rfl, rfl, C9_add_edge_menu_without_source_is_noop St.empty rfl rfl⟩

/-- C10: while edge-creation mode is active with a stored source, a primary
unmodified click at a point where the node query finds nothing changes no
interaction state: the mode stays active with the same source, the preview
line survives, and the node and edge collections are unchanged — an
empty-space click is not a cancel. -/
theorem C10_empty_space_click_keeps_creation_state (s : St) (px py : ℚ) (n : NodeId)
    (h1 : s.isCreatingEdge = true)
    (h2 : s.edgeSourceNode = some n)
    (h3 : getNodeAt s px py = none) :
    (interactiveLeftClick s px py).isCreatingEdge = true ∧
    (interactiveLeftClick s px py).edgeSourceNode = some n ∧
    (interactiveLeftClick s px py).tempEdgeLine = s.tempEdgeLine ∧
    (interactiveLeftClick s px py).edges = s.edges ∧
    (interactiveLeftClick s px py).nodes = s.nodes :=
  interactiveLeftClick_miss s px py n h1 h2 h3

theorem C10_empty_space_click_keeps_creation_state_witness :
    c10state.isCreatingEdge = true ∧
    c10state.edgeSourceNode = some 0 ∧
    getNodeAt c10state 500 500 = none ∧
    ((interactiveLeftClick c10state 500 500).isCreatingEdge = true ∧
     (interactiveLeftClick c10state 500 500).edgeSourceNode = some 0 ∧
     (interactiveLeftClick c10state 500 500).tempEdgeLine = c10state.tempEdgeLine ∧
     (interactiveLeftClick c10state 500 500).edges = c10state.edges ∧
     (interactiveLeftClick c10state 500 500).nodes = c10state.nodes) :=
  ⟨rfl, rfl,
   by norm_num [c10state, AddNodeAt, St.empty, ctxAddEdgeFrom, getNodeAt, nodeIntersectsPick,
     nodeContains, clampQ, List.insertionSort, List.orderedInsert, List.filter, List.find?,
     updVal, findVal, zGE],
   C10_empty_space_click_keeps_creation_state c10state 500 500 0 rfl rfl
     (by norm_num [c10state, AddNodeAt, St.empty, ctxAddEdgeFrom, getNodeAt, nodeIntersectsPick,
       nodeContains, clampQ, List.insertionSort, List.orderedInsert, List.filter, List.find?,
       updVal, findVal, zGE])⟩

end NetSimModel
